import Mathlib

/-!
# Scene stepping core of Intro_Physics (`code/Scene.cpp`, `code/Scene.h`)

A shallow embedding of `Scene::Initialize`, `Scene::Update`,
`Scene::ThrowBallPetanque` and `Scene::SetPower`.

Conventions of the embedding.

* `float` values are rationals (`ℚ`).  The time ledger of `Scene::Update`
  (`dt = contact.timeOfImpact - accumulatedTime`, `accumulatedTime += dt`,
  `timeRemaining = dt_sec - accumulatedTime`) is computed as the source computes
  it: each result is rounded to binary32, to nearest with ties to even
  (`round32`).  The other float operations (gravity, damping, integration, launch,
  power) are taken exact.  The only division of the source,
  `1.0f / body.inverseMass`, yields `0` in `ℚ` when `inverseMass` is `0` (the
  source yields an infinity); that value is never used, because
  `ApplyImpulseLinear` ignores the impulse of an infinite-mass body.
* `std::vector<Body>` is `List Body`; a read through an index outside the vector
  is undefined behaviour in the source and makes the embedded operation return
  `none`.
* `Body`, `Contact`, `BroadPhase`, `Intersection::Intersect`,
  `Contact::ResolveContact` and `Contact::CompareContact` are declared in headers
  outside `code/`.  The geometric routines are fields of `Collab`; the two small
  `Body` methods and the comparator follow the specification and say so.
* `Scene::Update` returns, next to the new scene, a `Frame` log of what the call
  did (pairs, calls of `Intersect`, buffer writes, the ledger of the resolution
  loop, the time steps handed to `Body::Update`).
-/

namespace IntroPhysics

/-! ## Data model -/

/-- Three floats, as in `Vec3`. -/
structure Vec3 where
  x : ℚ
  y : ℚ
  z : ℚ
  deriving DecidableEq, Repr

namespace Vec3

/-- Componentwise `operator+`. -/
def add (u v : Vec3) : Vec3 := ⟨u.x + v.x, u.y + v.y, u.z + v.z⟩

/-- Scaling by a float, `operator*(float)`. -/
def scale (v : Vec3) (k : ℚ) : Vec3 := ⟨v.x * k, v.y * k, v.z * k⟩

/-- Squared length, `GetLengthSqr`. -/
def GetLengthSqr (v : Vec3) : ℚ := v.x * v.x + v.y * v.y + v.z * v.z

/-- The vector `Vec3(0, 0, 0)`. -/
def zero : Vec3 := ⟨0, 0, 0⟩

end Vec3

/-- Four floats, as in `Quat(x, y, z, w)`. -/
structure Quat where
  x : ℚ
  y : ℚ
  z : ℚ
  w : ℚ
  deriving DecidableEq, Repr

/-- The only shape `Scene.cpp` creates: `new ShapeSphere(radius)`. -/
structure ShapeSphere where
  radius : ℚ
  deriving DecidableEq, Repr

/-- The fields of `Body` that `Scene.cpp` reads or writes.  `shape` is the owning
pointer, `none` for a null pointer. -/
structure Body where
  position : Vec3
  orientation : Quat
  linearVelocity : Vec3
  angularVelocity : Vec3
  inverseMass : ℚ
  elasticity : ℚ
  friction : ℚ
  shape : Option ShapeSphere
  deriving DecidableEq, Repr

/-- A candidate pair of body indices produced by the broadphase. -/
structure CollisionPair where
  a : Nat
  b : Nat
  deriving DecidableEq, Repr

/-- What `Intersection::Intersect` writes into its `Contact` out-parameter, apart
from the two body pointers: the time of impact and the contact geometry. -/
structure Impact where
  timeOfImpact : ℚ
  point : Vec3
  normal : Vec3
  deriving DecidableEq, Repr

/-- A `Contact`: the two bodies (`Body* a`, `Body* b`, here their indices in
`bodies`) and what `Intersect` computed. -/
structure Contact where
  a : Nat
  b : Nat
  timeOfImpact : ℚ
  point : Vec3
  normal : Vec3
  deriving DecidableEq, Repr

/-- The state of a `Scene`: `bodies`, `round` (an `int` that only ever holds
`0..7`: it starts at `0`, is reset to `0` when it is `>= 7` and is otherwise only
incremented) and `power`. -/
structure Scene where
  bodies : List Body
  round : Nat
  power : ℚ
  deriving DecidableEq, Repr

/-- The scene right after the constructor: no bodies, `round{0}`, `power{1}`. -/
def Scene.fresh : Scene := ⟨[], 0, 1⟩

/-- The routines `Scene::Update` calls that live outside `code/`:
`BroadPhase(bodies, n, pairs, dt)`, `Intersection::Intersect(A, B, dt, contact)`
(`none` for `false`), `Contact::ResolveContact(contact)` acting on the two bodies
the contact points to, and the quaternion integration of `Body::Update`. -/
structure Collab where
  BroadPhase : List Body → ℚ → List CollisionPair
  Intersect : Body → Body → ℚ → Option Impact
  ResolveContact : Contact → Body → Body → Body × Body
  rotate : Quat → Vec3 → ℚ → Quat

/-! ## `Body` methods used by the scene -/

/-- Modelled from the spec: `Body::ApplyImpulseLinear` is declared in `Body.h`,
outside `code/`.  Section 4.1 applies the gravity impulse to every body with finite
mass only, and section 7 asks that inverse mass be used throughout: a body with
`inverseMass == 0` is left alone, any other gains `impulse * inverseMass` of linear
velocity. -/
def Body.ApplyImpulseLinear (body : Body) (impulse : Vec3) : Body :=
  if body.inverseMass = 0 then body
  else { body with linearVelocity := body.linearVelocity.add (impulse.scale body.inverseMass) }

/-- Modelled from the spec: `Body::Update` is declared in `Body.h`, outside `code/`.
Section 4.5: one integration step advances the position by `velocity * dt_step` and
the orientation by the angular velocity over `dt_step`; immovable bodies
(`inverseMass == 0`) skip the translation.  The quaternion integration itself is
the parameter `rotate`. -/
def Body.Update (rotate : Quat → Vec3 → ℚ → Quat) (body : Body) (dt_sec : ℚ) : Body :=
  { body with
    position :=
      if body.inverseMass = 0 then body.position
      else body.position.add (body.linearVelocity.scale dt_sec)
    orientation := rotate body.orientation body.angularVelocity dt_sec }

/-! ## `Scene::ThrowBallPetanque` and `Scene::SetPower` -/

/-- The index used by `Body& body = bodies[round]` in `ThrowBallPetanque`: `round`
after the `if (round >= 7) round = 0;` at the top of the function. -/
def Scene.throwSlot (s : Scene) : Nat := if s.round ≥ 7 then 0 else s.round

/-- The launch written into a launchable body: position, `cameraRotation * power`,
and the backspin `Vec3(0, -4, 0)`. -/
def Body.launch (body : Body) (positionP cameraRotation : Vec3) (power : ℚ) : Body :=
  { body with
    position := positionP
    linearVelocity := cameraRotation.scale power
    angularVelocity := ⟨0, -4, 0⟩ }

/-- `Scene::ThrowBallPetanque(positionP, cameraRotation)`. -/
def Scene.ThrowBallPetanque (s : Scene) (positionP cameraRotation : Vec3) : Option Scene :=
  let round := s.throwSlot
  match s.bodies[round]? with
  | none => none
  | some body =>
    let bodies :=
      if body.elasticity = 1 / 10 then
        s.bodies.set round (body.launch positionP cameraRotation s.power)
      else s.bodies
    some { s with bodies := bodies, round := round + 1 }

/-- `Scene::SetPower(amountP)`; the value sent to `std::cout` is the stored
`power`. -/
def Scene.SetPower (s : Scene) (amountP : ℚ) : Scene :=
  let power := s.power + amountP
  { s with power := if power < 1 / 2 then 1 / 2 else power }

/-- Consecutive `ThrowBallPetanque` calls, one per `(positionP, cameraRotation)`
of the list; next to the final scene, the slot `bodies[round]` each call
selected. -/
def Scene.throws : Scene → List (Vec3 × Vec3) → Option (List Nat × Scene)
  | s, [] => some ([], s)
  | s, arg :: rest =>
    match s.ThrowBallPetanque arg.1 arg.2 with
    | none => none
    | some s' => (Scene.throws s' rest).map fun r => (s.throwSlot :: r.1, r.2)

/-! ## `Scene::Initialize` -/

/-- The body of the first loop of `Initialize` (iteration `i`), acting on the
variable `body`. -/
def Initialize.sphere (body : Body) (i : Nat) : Body :=
  let body := { body with position := ⟨1, 1, 5 / 2⟩, orientation := ⟨0, 0, 0, 1⟩ }
  let body :=
    if i = 0 then { body with shape := some ⟨2 / 5⟩, inverseMass := 9 / 10, friction := 1 }
    else { body with shape := some ⟨1⟩, inverseMass := 1 / 2, friction := 4 / 5 }
  { body with elasticity := 1 / 10 }

/-- The first loop of `Initialize` with `k` iterations left, at index `i`. -/
def Initialize.spheres : Nat → Nat → Body → List Body → Body × List Body
  | 0, _, body, bodies => (body, bodies)
  | k + 1, i, body, bodies =>
    Initialize.spheres k (i + 1) (Initialize.sphere body i) (bodies ++ [Initialize.sphere body i])

/-- The body of the arena loop of `Initialize`, with `radiusArena = 5` and
`gap = 9`. -/
def Initialize.arenaBall (cosf sinf : ℚ → ℚ) (body : Body) (incrementalAngle : ℚ) : Body :=
  { body with
    position := ⟨cosf incrementalAngle * 5 * 9, sinf incrementalAngle * 5 * 9, 0⟩
    orientation := ⟨0, 0, 0, 1⟩
    shape := some ⟨5⟩
    inverseMass := 0
    elasticity := 1 / 2
    friction := 1 / 20
    linearVelocity := Vec3.zero }

/-- The arena loop of `Initialize` with `k` iterations left (`n_balls = 30`). -/
def Initialize.arena (cosf sinf : ℚ → ℚ) : Nat → Body → ℚ → List Body → Body × List Body
  | 0, body, _, bodies => (body, bodies)
  | k + 1, body, incrementalAngle, bodies =>
    Initialize.arena cosf sinf k (Initialize.arenaBall cosf sinf body incrementalAngle)
      (incrementalAngle + 2 * (314159265 / 100000000) / 30)
      (bodies ++ [Initialize.arenaBall cosf sinf body incrementalAngle])

/-- The body of the inner earth loop of `Initialize`, with `radius = 800`. -/
def Initialize.earthBall (body : Body) (i j : Nat) : Body :=
  { body with
    position := ⟨((i : ℚ) - 1) * 800 * (1 / 4), ((j : ℚ) - 1) * 800 * (1 / 4), -800⟩
    orientation := ⟨0, 0, 0, 1⟩
    shape := some ⟨800⟩
    inverseMass := 0
    elasticity := 99 / 100
    friction := 1 / 2 }

/-- The two nested earth loops of `Initialize` over the remaining `(i, j)`. -/
def Initialize.earth : List (Nat × Nat) → Body → List Body → Body × List Body
  | [], body, bodies => (body, bodies)
  | ij :: rest, body, bodies =>
    Initialize.earth rest (Initialize.earthBall body ij.1 ij.2)
      (bodies ++ [Initialize.earthBall body ij.1 ij.2])

/-- `Scene::Initialize()`.  `cosf` and `sinf` are the library functions, `body0`
the default-constructed `Body body;`. -/
def Scene.Initialize (cosf sinf : ℚ → ℚ) (body0 : Body) (s : Scene) : Scene :=
  let st := Initialize.spheres 7 0 body0 s.bodies
  let st := Initialize.arena cosf sinf 30 st.1 0 st.2
  let st := Initialize.earth
    [(0, 0), (0, 1), (0, 2), (1, 0), (1, 1), (1, 2), (2, 0), (2, 1), (2, 2)] st.1 st.2
  { s with bodies := st.2 }

/-! ## binary32 arithmetic of the time ledger -/

/-- The integer nearest to `y`, the even one of the two when `y` lies halfway. -/
def roundHalfEven (y : ℚ) : Int :=
  if y - ⌊y⌋ < 1 / 2 then ⌊y⌋
  else if 1 / 2 < y - ⌊y⌋ then ⌊y⌋ + 1
  else if ⌊y⌋ % 2 = 0 then ⌊y⌋ else ⌊y⌋ + 1

/-- The binary32 value of a real result (round to nearest, ties to even): for
`2 ^ e ≤ |x| < 2 ^ (e + 1)` the result is the multiple of `2 ^ (e - 23)` nearest to
`x`, with `e` no lower than `-126` (subnormal range).  Overflow to infinity, far
above the times of a frame, is not represented. -/
def round32 (x : ℚ) : ℚ :=
  if x = 0 then 0
  else
    let quantum : ℚ := 2 ^ (max (Int.log 2 |x|) (-126) - 23)
    roundHalfEven (x / quantum) * quantum

/-- The float times `ts` subtract without rounding: the difference of any two of
them is a binary32 value. -/
def ExactTimes (ts : List ℚ) : Prop :=
  ∀ t ∈ ts, ∀ u ∈ ts, round32 (t - u) = t - u

/-! ## `Scene::Update` -/

/-- The gravity impulse of `Scene::Update` applied to one body: `mass`,
`impulseGravity` and `body.ApplyImpulseLinear(impulseGravity)`. -/
def Body.afterGravity (body : Body) (dt_sec : ℚ) : Body :=
  let mass := 1 / body.inverseMass
  let impulseGravity := ((⟨0, 0, -10⟩ : Vec3).scale mass).scale dt_sec
  body.ApplyImpulseLinear impulseGravity

/-- The gravity and damping pass of `Scene::Update` on one body (the body of the
first `for` loop). -/
def Body.gravityAndDamping (body : Body) (dt_sec : ℚ) : Body :=
  let body := body.afterGravity dt_sec
  if body.elasticity = 1 / 10 then
    let length := body.linearVelocity.GetLengthSqr
    if length > 1 / 20 then
      { body with
        linearVelocity := body.linearVelocity.scale (99 / 100)
        angularVelocity := body.angularVelocity.scale (98 / 100) }
    else
      { body with linearVelocity := Vec3.zero, angularVelocity := Vec3.zero }
  else body

/-- Conversion of a `size_t` value to `int` (32 bits, two's complement). -/
def toInt32 (n : Nat) : Int :=
  if n % 2 ^ 32 < 2 ^ 31 then ((n % 2 ^ 32 : Nat) : Int) else ((n % 2 ^ 32 : Nat) : Int) - 2 ^ 32

/-- The value of `const int maxContacts = bodies.size() * bodies.size();`: the
product is taken in `size_t` (64 bits) and converted to `int`. -/
def maxContacts (n : Nat) : Int := toInt32 ((n * n) % 2 ^ 64)

/-- What the narrow-phase loop did: the contacts stored in the buffer, in order;
the pairs handed to `Intersection::Intersect`; the indices `numContacts` used in
`contacts[numContacts] = contact`. -/
structure NarrowLog where
  contacts : List Contact
  calls : List CollisionPair
  writes : List Int
  deriving DecidableEq, Repr

/-- The narrow-phase loop of `Scene::Update` over the remaining pairs, entered
with the current value of `numContacts`.  `Intersect` records its two arguments as
the bodies of the contact (section 3 of the spec), here the indices of the pair. -/
def narrowPhase (C : Collab) (bodies : List Body) (dt_sec : ℚ) :
    List CollisionPair → Int → Option NarrowLog
  | [], _ => some ⟨[], [], []⟩
  | pair :: rest, numContacts =>
    match bodies[pair.a]?, bodies[pair.b]? with
    | some bodyA, some bodyB =>
      if bodyA.inverseMass = 0 ∧ bodyB.inverseMass = 0 then
        narrowPhase C bodies dt_sec rest numContacts
      else
        match C.Intersect bodyA bodyB dt_sec with
        | some hit =>
          (narrowPhase C bodies dt_sec rest (numContacts + 1)).map fun log =>
            { contacts := ⟨pair.a, pair.b, hit.timeOfImpact, hit.point, hit.normal⟩ :: log.contacts
              calls := pair :: log.calls
              writes := numContacts :: log.writes }
        | none =>
          (narrowPhase C bodies dt_sec rest numContacts).map fun log =>
            { log with calls := pair :: log.calls }
    | _, _ => none

/-- Modelled from the spec: `Contact::CompareContact` is declared outside `code/`.
Section 4.4, step 1: the contacts are sorted ascending by `timeOfImpact`; ties are
broken deterministically, here by keeping the discovery order. -/
def sortContacts (contacts : List Contact) : List Contact :=
  contacts.insertionSort (fun c d => c.timeOfImpact ≤ d.timeOfImpact)

/-- The sorting step of `Scene::Update`: `qsort` is called only when
`numContacts > 1`. -/
def sortStep (contacts : List Contact) : List Contact :=
  if contacts.length > 1 then sortContacts contacts else contacts

/-- One line of the ledger of the resolution loop: the contact, the step
`dt = contact.timeOfImpact - accumulatedTime` computed for it, whether it was
resolved (not skipped by the infinite-mass test), and `accumulatedTime` at the end
of the iteration. -/
structure LedgerEntry where
  contact : Contact
  dt : ℚ
  resolved : Bool
  accumulatedTime : ℚ
  deriving DecidableEq, Repr

/-- The state the resolution loop ends in, and its ledger. -/
structure Resolution where
  bodies : List Body
  accumulatedTime : ℚ
  ledger : List LedgerEntry
  deriving DecidableEq, Repr

/-- The two statements of a resolved iteration of the resolution loop:
`bodies[j].Update(dt)` for every `j`, then `Contact::ResolveContact(contact)`.
After the position update the pointers `contact.a` and `contact.b` designate the
updated bodies; `ResolveContact` rewrites those two. -/
def integrateAndResolve (C : Collab) (contact : Contact) (bodyA bodyB : Body)
    (bodies : List Body) (dt : ℚ) : List Body :=
  let moved := bodies.map fun body => body.Update C.rotate dt
  let out := C.ResolveContact contact (bodyA.Update C.rotate dt) (bodyB.Update C.rotate dt)
  (moved.set contact.a out.1).set contact.b out.2

/-- The resolution loop of `Scene::Update` over the remaining contacts.  The two
float operations of the ledger, `contact.timeOfImpact - accumulatedTime` and
`accumulatedTime += dt`, are rounded to binary32. -/
def resolveLoop (C : Collab) : List Contact → List Body → ℚ → Option Resolution
  | [], bodies, accumulatedTime => some ⟨bodies, accumulatedTime, []⟩
  | contact :: rest, bodies, accumulatedTime =>
    let dt := round32 (contact.timeOfImpact - accumulatedTime)
    match bodies[contact.a]?, bodies[contact.b]? with
    | some bodyA, some bodyB =>
      if bodyA.inverseMass = 0 ∧ bodyB.inverseMass = 0 then
        (resolveLoop C rest bodies accumulatedTime).map fun r =>
          { r with ledger := ⟨contact, dt, false, accumulatedTime⟩ :: r.ledger }
      else
        (resolveLoop C rest (integrateAndResolve C contact bodyA bodyB bodies dt)
            (round32 (accumulatedTime + dt))).map fun r =>
          { r with ledger := ⟨contact, dt, true, round32 (accumulatedTime + dt)⟩ :: r.ledger }
    | _, _ => none

/-- Sorting and resolution of a contact list, starting from `accumulatedTime = 0`. -/
def resolvePhase (C : Collab) (contacts : List Contact) (bodies : List Body) :
    Option Resolution :=
  resolveLoop C (sortStep contacts) bodies 0

/-- The time steps of the resolved contacts of a ledger. -/
def ledgerSteps (ledger : List LedgerEntry) : List ℚ :=
  (ledger.filter fun e => e.resolved).map fun e => e.dt

/-- The outcome of one `Scene::Update` call: the new scene and a log of the call.
`found` is the contact buffer before sorting, `steps` the time steps passed to
`Body::Update` for every body, in order. -/
structure Frame where
  scene : Scene
  pairs : List CollisionPair
  calls : List CollisionPair
  writes : List Int
  maxContacts : Int
  found : List Contact
  numContacts : Int
  ledger : List LedgerEntry
  accumulatedTime : ℚ
  steps : List ℚ
  deriving DecidableEq, Repr

/-- The body list after the gravity and damping loop of `Scene::Update`. -/
def Scene.afterForces (s : Scene) (dt_sec : ℚ) : List Body :=
  s.bodies.map fun body => body.gravityAndDamping dt_sec

/-- The end of `Scene::Update`, from the narrow-phase log and the outcome of the
resolution loop: the integration over `timeRemaining`, the binary32 difference
`dt_sec - accumulatedTime`, when it is positive. -/
def Scene.finish (C : Collab) (s : Scene) (dt_sec : ℚ) (log : NarrowLog) (r : Resolution) :
    Frame :=
  let timeRemaining := round32 (dt_sec - r.accumulatedTime)
  { scene :=
      { s with
        bodies :=
          if timeRemaining > 0 then
            r.bodies.map fun body => body.Update C.rotate timeRemaining
          else r.bodies }
    pairs := C.BroadPhase (s.afterForces dt_sec) dt_sec
    calls := log.calls
    writes := log.writes
    maxContacts := maxContacts s.bodies.length
    found := log.contacts
    numContacts := log.contacts.length
    ledger := r.ledger
    accumulatedTime := r.accumulatedTime
    steps := ledgerSteps r.ledger ++ (if timeRemaining > 0 then [timeRemaining] else []) }

/-- `Scene::Update(dt_sec)`. -/
def Scene.Update (C : Collab) (s : Scene) (dt_sec : ℚ) : Option Frame :=
  let bodies := s.afterForces dt_sec
  let collisionPairs := C.BroadPhase bodies dt_sec
  match narrowPhase C bodies dt_sec collisionPairs 0 with
  | none => none
  | some log =>
    match resolvePhase C log.contacts bodies with
    | none => none
    | some r => some (s.finish C dt_sec log r)

/-- Consecutive `Scene::Update` calls, one per element of `dts`. -/
def Scene.updates (C : Collab) : Scene → List ℚ → Option Scene
  | s, [] => some s
  | s, dt_sec :: rest =>
    match s.Update C dt_sec with
    | none => none
    | some f => Scene.updates C f.scene rest

/-! ## Contracts of the collaborators -/

/-- Modelled from the spec: `BroadPhase` is declared outside `code/`.  Section 3: a
collision pair is a pair of body indices, so both index the body list it was
computed from. -/
def Collab.InBounds (C : Collab) : Prop :=
  ∀ bodies dt_sec, ∀ p ∈ C.BroadPhase bodies dt_sec,
    p.a < bodies.length ∧ p.b < bodies.length

/-- Modelled from the spec: `Contact::ResolveContact` is declared outside `code/`.
Section 4.4 has it apply impulses "respecting `inverseMass == 0` bodies as
immovable", and impulses change velocities, not material parameters: both bodies
keep `inverseMass` and `elasticity`, and a body with `inverseMass == 0` keeps its
position and linear velocity. -/
def Collab.Respects (C : Collab) : Prop :=
  ∀ c A B,
    (C.ResolveContact c A B).1.inverseMass = A.inverseMass ∧
    (C.ResolveContact c A B).1.elasticity = A.elasticity ∧
    (C.ResolveContact c A B).2.inverseMass = B.inverseMass ∧
    (C.ResolveContact c A B).2.elasticity = B.elasticity ∧
    (A.inverseMass = 0 →
      (C.ResolveContact c A B).1.position = A.position ∧
      (C.ResolveContact c A B).1.linearVelocity = A.linearVelocity) ∧
    (B.inverseMass = 0 →
      (C.ResolveContact c A B).2.position = B.position ∧
      (C.ResolveContact c A B).2.linearVelocity = B.linearVelocity)

/-- Modelled from the spec: `Body::ApplyImpulse` is declared in `Body.h`, outside
`code/`.  Section 4.4 applies linear and angular impulses "respecting
`inverseMass == 0` bodies as immovable": such a body is left alone, any other
gains `impulse * inverseMass` of linear velocity and the angular velocity change
`spin body point impulse` that its shape gives the impulse at `point`. -/
def Body.ApplyImpulse (spin : Body → Vec3 → Vec3 → Vec3) (body : Body)
    (point impulse : Vec3) : Body :=
  if body.inverseMass = 0 then body
  else
    { body with
      linearVelocity := body.linearVelocity.add (impulse.scale body.inverseMass)
      angularVelocity := body.angularVelocity.add (spin body point impulse) }

/-- Modelled from the spec: `Contact::ResolveContact` is declared outside `code/`.
Section 4.4: from the relative velocity at the contact point, the inverse masses,
the elasticities, the frictions and the normal it computes an impulse (normal plus
friction, here the parameter `impulse`) and applies it, equal and opposite, to the
two bodies through `ApplyImpulse`. -/
def resolveByImpulses (impulse : Contact → Body → Body → Vec3)
    (spin : Body → Vec3 → Vec3 → Vec3) (contact : Contact) (bodyA bodyB : Body) :
    Body × Body :=
  (bodyA.ApplyImpulse spin contact.point ((impulse contact bodyA bodyB).scale (-1)),
   bodyB.ApplyImpulse spin contact.point (impulse contact bodyA bodyB))

/-- The collaborators whose contact resolution is `resolveByImpulses`; broadphase,
narrowphase, the impulse computed for a contact, the angular response and the
quaternion integration are arbitrary. -/
def impulsive (BroadPhase : List Body → ℚ → List CollisionPair)
    (Intersect : Body → Body → ℚ → Option Impact)
    (impulse : Contact → Body → Body → Vec3) (spin : Body → Vec3 → Vec3 → Vec3)
    (rotate : Quat → Vec3 → ℚ → Quat) : Collab where
  BroadPhase := BroadPhase
  Intersect := Intersect
  ResolveContact := resolveByImpulses impulse spin
  rotate := rotate

/-! ## Invariants -/

/-- The property of a slot that `Scene::Update` maintains for an infinite-mass
body: infinite mass, and a given position, linear velocity and elasticity. -/
def Body.Pinned (b : Body) (x : Body) : Prop :=
  x.inverseMass = 0 ∧ x.position = b.position ∧ x.linearVelocity = b.linearVelocity ∧
    x.elasticity = b.elasticity

/-- The invariant of the round-robin state: `round` is at most 7 and the slots 0
to 6 hold launchable bodies. -/
def Scene.RoundInv (s : Scene) : Prop :=
  s.round ≤ 7 ∧ ∀ i, i < 7 → ∃ b : Body, s.bodies[i]? = some b ∧ b.elasticity = 1 / 10

/-! ## Reachable scenes -/

/-- The scenes reachable from `Initialize()` on a fresh scene by
`ThrowBallPetanque`, `SetPower` and `Update` calls that run to their end. -/
inductive Reachable (C : Collab) (cosf sinf : ℚ → ℚ) (body0 : Body) : Scene → Prop
  | init : Reachable C cosf sinf body0 (Scene.fresh.Initialize cosf sinf body0)
  | throw (s s' : Scene) (positionP cameraRotation : Vec3) :
      Reachable C cosf sinf body0 s →
      s.ThrowBallPetanque positionP cameraRotation = some s' →
      Reachable C cosf sinf body0 s'
  | setPower (s : Scene) (amountP : ℚ) :
      Reachable C cosf sinf body0 s → Reachable C cosf sinf body0 (s.SetPower amountP)
  | update (s : Scene) (f : Frame) (dt_sec : ℚ) :
      Reachable C cosf sinf body0 s → s.Update C dt_sec = some f →
      Reachable C cosf sinf body0 f.scene

/-! ## A concrete set of collaborators -/

/-- A small instance of the collaborators: the broadphase proposes the pair
`(0, 1)` when there are two bodies, every proposed pair touches at half the frame,
resolution exchanges the linear velocities of movable bodies, and orientations are
kept. -/
def demo : Collab where
  BroadPhase := fun bodies _ => if 2 ≤ bodies.length then [⟨0, 1⟩] else []
  Intersect := fun A _ dt_sec => some ⟨dt_sec / 2, A.position, ⟨0, 0, 1⟩⟩
  ResolveContact := fun _ A B =>
    (if A.inverseMass = 0 then A else { A with linearVelocity := B.linearVelocity },
     if B.inverseMass = 0 then B else { B with linearVelocity := A.linearVelocity })
  rotate := fun q _ _ => q

/-- A collaborator set whose broadphase proposes nothing. -/
def quiet : Collab := { demo with BroadPhase := fun _ _ => [] }

/-- Collaborators with the broadphase and narrowphase of `demo` and contact
resolution by the impulse `(0, 0, 1)`. -/
def bumper : Collab :=
  impulsive demo.BroadPhase demo.Intersect (fun _ _ _ => ⟨0, 0, 1⟩) (fun _ _ _ => Vec3.zero)
    (fun q _ _ => q)

/-- A sphere at the origin with the given inverse mass, elasticity and linear
velocity. -/
def moving (inverseMass elasticity : ℚ) (linearVelocity : Vec3) : Body :=
  ⟨Vec3.zero, ⟨0, 0, 0, 1⟩, linearVelocity, Vec3.zero, inverseMass, elasticity, 1 / 2, some ⟨1⟩⟩

/-- A sphere at rest at the origin with the given inverse mass and elasticity. -/
def ball (inverseMass elasticity : ℚ) : Body :=
  ⟨Vec3.zero, ⟨0, 0, 0, 1⟩, Vec3.zero, Vec3.zero, inverseMass, elasticity, 1 / 2, some ⟨1⟩⟩

/-! ## Launch and power control -/

theorem throwSlot_le (s : Scene) : s.throwSlot ≤ 6 := by
  unfold Scene.throwSlot
  split <;> omega

theorem ThrowBallPetanque_some (s : Scene) (positionP cameraRotation : Vec3)
    (h : 7 ≤ s.bodies.length) :
    ∃ body, s.bodies[s.throwSlot]? = some body ∧
      s.ThrowBallPetanque positionP cameraRotation =
        some { s with
          bodies :=
            if body.elasticity = 1 / 10 then
              s.bodies.set s.throwSlot (body.launch positionP cameraRotation s.power)
            else s.bodies
          round := s.throwSlot + 1 } := by
  have hlt : s.throwSlot < s.bodies.length := by
    have := throwSlot_le s
    omega
  refine ⟨s.bodies[s.throwSlot], List.getElem?_eq_getElem hlt, ?_⟩
  simp [Scene.ThrowBallPetanque, List.getElem?_eq_getElem hlt]

theorem throwSlot_after (s s' : Scene) (h : s'.round = s.throwSlot + 1) :
    s'.throwSlot = (s.throwSlot + 1) % 7 := by
  have := throwSlot_le s
  unfold Scene.throwSlot at *
  rw [h]
  split <;> split <;> omega

theorem throws_slots (args : List (Vec3 × Vec3)) :
    ∀ s : Scene, 7 ≤ s.bodies.length →
      ∃ s', s.throws args =
        some ((List.range args.length).map (fun k => (s.throwSlot + k) % 7), s') := by
  induction args with
  | nil => intro s _; exact ⟨s, by simp [Scene.throws]⟩
  | cons arg rest ih =>
    intro s h
    obtain ⟨body, _, hthrow⟩ := ThrowBallPetanque_some s arg.1 arg.2 h
    generalize ht : ({ s with
          bodies :=
            if body.elasticity = 1 / 10 then
              s.bodies.set s.throwSlot (body.launch arg.1 arg.2 s.power)
            else s.bodies
          round := s.throwSlot + 1 } : Scene) = t at hthrow
    have hround : t.round = s.throwSlot + 1 := by rw [← ht]
    have hlen : 7 ≤ t.bodies.length := by
      rw [← ht]
      simp only
      split <;> simpa using h
    obtain ⟨s', hs'⟩ := ih t hlen
    refine ⟨s', ?_⟩
    have hslot := throwSlot_after s t hround
    have hle := throwSlot_le s
    have hlist : List.map (fun k => (s.throwSlot + k) % 7) (List.range (rest.length + 1)) =
        s.throwSlot :: List.map (fun k => (t.throwSlot + k) % 7) (List.range rest.length) := by
      rw [List.range_succ_eq_map, List.map_cons, List.map_map]
      congr 1
      · omega
      · apply List.map_congr_left
        intro k _
        simp only [Function.comp, hslot]
        omega
    simp only [Scene.throws, hthrow, hs', Option.map_some', List.length_cons, hlist]

/-- C4: from a scene with `round = 0` and at least 7 bodies, consecutive
`ThrowBallPetanque` calls all succeed and the k-th call (counting from 1) selects
slot `(k - 1) mod 7`; eight calls select the slots 0, 1, 2, 3, 4, 5, 6, 0. -/
theorem ThrowBallPetanque_round_robin (s : Scene) (args : List (Vec3 × Vec3))
    (hround : s.round = 0) (hbodies : 7 ≤ s.bodies.length) :
    (∃ s', s.throws args = some ((List.range args.length).map (fun k => k % 7), s')) ∧
    (args.length = 8 → ∃ s', s.throws args = some ([0, 1, 2, 3, 4, 5, 6, 0], s')) := by
  have hslot : s.throwSlot = 0 := by simp [Scene.throwSlot, hround]
  obtain ⟨s', hs'⟩ := throws_slots args s hbodies
  simp only [hslot, Nat.zero_add] at hs'
  refine ⟨⟨s', hs'⟩, fun h8 => ⟨s', ?_⟩⟩
  rw [hs', h8]
  rfl

/-- C5 (as amended): from a starting power of at most 10.5, `SetPower(-10)` leaves
`power` equal to 0.5, from a larger starting power it leaves `power - 10`; after
any `SetPower` call `power` is at least 0.5. -/
theorem SetPower_floor (s : Scene) (amountP : ℚ) :
    (s.power ≤ 21 / 2 → (s.SetPower (-10)).power = 1 / 2) ∧
    (21 / 2 < s.power → (s.SetPower (-10)).power = s.power - 10) ∧
    1 / 2 ≤ (s.SetPower amountP).power := by
  refine ⟨fun h => ?_, fun h => ?_, ?_⟩
  · simp only [Scene.SetPower]
    split
    · rfl
    · linarith
  · simp only [Scene.SetPower]
    split
    · linarith
    · ring
  · simp only [Scene.SetPower]
    split
    · exact le_refl _
    · linarith

/-- C5 fails as stated: from `power = 100`, `SetPower(-10)` leaves `power = 90`. -/
theorem SetPower_not_always_half :
    ¬ ∀ s : Scene, (s.SetPower (-10)).power = 1 / 2 := by
  intro h
  have := h ⟨[], 0, 100⟩
  norm_num [Scene.SetPower] at this

/-- C7: on a scene with at least 7 bodies `ThrowBallPetanque` succeeds, keeps
`power` and the number of bodies; when the selected body is launchable, that slot
holds the body with `position`, `linearVelocity = cameraRotation * power` and
`angularVelocity = (0, -4, 0)` replaced and every other field kept, and every other
slot is unchanged; when it is not launchable the body list is unchanged. -/
theorem ThrowBallPetanque_frame (s : Scene) (positionP cameraRotation : Vec3)
    (hbodies : 7 ≤ s.bodies.length) :
    ∃ body s', s.bodies[s.throwSlot]? = some body ∧
      s.ThrowBallPetanque positionP cameraRotation = some s' ∧
      s'.power = s.power ∧
      s'.bodies.length = s.bodies.length ∧
      (body.elasticity = 1 / 10 →
        s'.bodies[s.throwSlot]? =
          some { body with
            position := positionP
            linearVelocity := cameraRotation.scale s.power
            angularVelocity := ⟨0, -4, 0⟩ } ∧
        ∀ j, j ≠ s.throwSlot → s'.bodies[j]? = s.bodies[j]?) ∧
      (body.elasticity ≠ 1 / 10 → s'.bodies = s.bodies) := by
  obtain ⟨body, hbody, hthrow⟩ := ThrowBallPetanque_some s positionP cameraRotation hbodies
  have hlt : s.throwSlot < s.bodies.length := by
    have := throwSlot_le s
    omega
  refine ⟨body, _, hbody, hthrow, rfl, ?_, ?_, ?_⟩
  · simp only
    split <;> simp
  · intro hel
    simp only [if_pos hel]
    refine ⟨?_, fun j hj => ?_⟩
    · simp [List.getElem?_set, hlt, Body.launch]
    · simp [List.getElem?_set, Ne.symm hj]
  · intro hel
    simp only [if_neg hel]

/-! ## Facts about binary32 rounding -/

theorem round32_zero : round32 0 = 0 := by simp [round32]

theorem roundHalfEven_exact (y : ℚ) (n : ℤ) (h : y = n) : roundHalfEven y = n := by
  subst h
  simp [roundHalfEven]

/-- The value of `round32` at a real of the binade `2 ^ e ≤ |x| < 2 ^ (e + 1)`,
`e ≥ -126`: the multiple of `2 ^ (e - 23)` given by `roundHalfEven`. -/
theorem round32_of (x : ℚ) (e n : ℤ) (hx : x ≠ 0) (hlo : (2 : ℚ) ^ e ≤ |x|)
    (hhi : |x| < (2 : ℚ) ^ (e + 1)) (he : -126 ≤ e)
    (hn : roundHalfEven (x / 2 ^ (e - 23)) = n) : round32 x = n * 2 ^ (e - 23) := by
  have hpos : 0 < |x| := abs_pos.mpr hx
  have hlog : Int.log 2 |x| = e := by
    apply le_antisymm
    · have := (Int.lt_zpow_iff_log_lt (by norm_num : 1 < 2) hpos).mp (by exact_mod_cast hhi)
      omega
    · exact (Int.zpow_le_iff_le_log (by norm_num : 1 < 2) hpos).mp (by exact_mod_cast hlo)
  unfold round32
  rw [if_neg hx]
  simp only [hlog, max_eq_left he, hn]

theorem round32_one : round32 1 = 1 := by
  rw [round32_of 1 0 8388608 (by norm_num) (by norm_num) (by norm_num) (by norm_num)
    (roundHalfEven_exact _ _ (by norm_num))]
  norm_num

/-! ## Facts about the frame step -/

theorem gravityAndDamping_inverseMass (body : Body) (dt_sec : ℚ) :
    (body.gravityAndDamping dt_sec).inverseMass = body.inverseMass := by
  unfold Body.gravityAndDamping Body.afterGravity Body.ApplyImpulseLinear
  dsimp only
  split_ifs <;> rfl

theorem gravityAndDamping_elasticity (body : Body) (dt_sec : ℚ) :
    (body.gravityAndDamping dt_sec).elasticity = body.elasticity := by
  unfold Body.gravityAndDamping Body.afterGravity Body.ApplyImpulseLinear
  dsimp only
  split_ifs <;> rfl

theorem gravityAndDamping_position (body : Body) (dt_sec : ℚ) :
    (body.gravityAndDamping dt_sec).position = body.position := by
  unfold Body.gravityAndDamping Body.afterGravity Body.ApplyImpulseLinear
  dsimp only
  split_ifs <;> rfl

theorem narrowPhase_some (C : Collab) (bodies : List Body) (dt_sec : ℚ) :
    ∀ (pairs : List CollisionPair) (n : Int),
      (∀ p ∈ pairs, p.a < bodies.length ∧ p.b < bodies.length) →
      ∃ log, narrowPhase C bodies dt_sec pairs n = some log := by
  intro pairs
  induction pairs with
  | nil => intro n _; exact ⟨_, rfl⟩
  | cons p rest ih =>
    intro n h
    have hp := h p (List.mem_cons_self _ _)
    have hrest : ∀ q ∈ rest, q.a < bodies.length ∧ q.b < bodies.length :=
      fun q hq => h q (List.mem_cons_of_mem _ hq)
    simp only [narrowPhase, List.getElem?_eq_getElem hp.1, List.getElem?_eq_getElem hp.2]
    split_ifs
    · exact ih n hrest
    · cases hI : C.Intersect bodies[p.a] bodies[p.b] dt_sec with
      | none =>
        obtain ⟨log, hlog⟩ := ih n hrest
        rw [hlog]
        exact ⟨_, rfl⟩
      | some hit =>
        obtain ⟨log, hlog⟩ := ih (n + 1) hrest
        rw [hlog]
        exact ⟨_, rfl⟩

/-- Every stored contact comes from a pair of the list whose bodies are not both of
infinite mass and on which `Intersect` answered with that time of impact. -/
theorem narrowPhase_contacts (C : Collab) (bodies : List Body) (dt_sec : ℚ) :
    ∀ (pairs : List CollisionPair) (n : Int) (log : NarrowLog),
      narrowPhase C bodies dt_sec pairs n = some log →
      ∀ c ∈ log.contacts, ∃ A B hit,
        (⟨c.a, c.b⟩ : CollisionPair) ∈ pairs ∧
        bodies[c.a]? = some A ∧ bodies[c.b]? = some B ∧
        ¬ (A.inverseMass = 0 ∧ B.inverseMass = 0) ∧
        C.Intersect A B dt_sec = some hit ∧ c.timeOfImpact = hit.timeOfImpact := by
  intro pairs
  induction pairs with
  | nil =>
    intro n log h c hc
    simp only [narrowPhase, Option.some.injEq] at h
    subst h
    simp at hc
  | cons p rest ih =>
    intro n log h c hc
    simp only [narrowPhase] at h
    split at h
    · rename_i A B hA hB
      split_ifs at h with hboth
      · obtain ⟨A', B', hit, hm, rest'⟩ := ih n log h c hc
        exact ⟨A', B', hit, List.mem_cons_of_mem _ hm, rest'⟩
      · split at h
        · rename_i hit hI
          cases hrec : narrowPhase C bodies dt_sec rest (n + 1) with
          | none => simp [hrec] at h
          | some log' =>
            simp only [hrec, Option.map_some', Option.some.injEq] at h
            subst h
            simp only [List.mem_cons] at hc
            rcases hc with rfl | hc
            · exact ⟨A, B, hit, List.mem_cons_self _ _, hA, hB, hboth, hI, rfl⟩
            · obtain ⟨A', B', hit', hm, rest'⟩ := ih (n + 1) log' hrec c hc
              exact ⟨A', B', hit', List.mem_cons_of_mem _ hm, rest'⟩
        · cases hrec : narrowPhase C bodies dt_sec rest n with
          | none => simp [hrec] at h
          | some log' =>
            simp only [hrec, Option.map_some', Option.some.injEq] at h
            subst h
            obtain ⟨A', B', hit', hm, rest'⟩ := ih n log' hrec c hc
            exact ⟨A', B', hit', List.mem_cons_of_mem _ hm, rest'⟩
    · simp at h

/-- Every pair handed to `Intersect` is a pair of the list whose bodies are not
both of infinite mass. -/
theorem narrowPhase_calls (C : Collab) (bodies : List Body) (dt_sec : ℚ) :
    ∀ (pairs : List CollisionPair) (n : Int) (log : NarrowLog),
      narrowPhase C bodies dt_sec pairs n = some log →
      ∀ p ∈ log.calls, ∃ A B, p ∈ pairs ∧
        bodies[p.a]? = some A ∧ bodies[p.b]? = some B ∧
        ¬ (A.inverseMass = 0 ∧ B.inverseMass = 0) := by
  intro pairs
  induction pairs with
  | nil =>
    intro n log h c hc
    simp only [narrowPhase, Option.some.injEq] at h
    subst h
    simp at hc
  | cons p rest ih =>
    intro n log h c hc
    simp only [narrowPhase] at h
    split at h
    · rename_i A B hA hB
      split_ifs at h with hboth
      · obtain ⟨A', B', hm, rest'⟩ := ih n log h c hc
        exact ⟨A', B', List.mem_cons_of_mem _ hm, rest'⟩
      · split at h
        · rename_i hit hI
          cases hrec : narrowPhase C bodies dt_sec rest (n + 1) with
          | none => simp [hrec] at h
          | some log' =>
            simp only [hrec, Option.map_some', Option.some.injEq] at h
            subst h
            simp only [List.mem_cons] at hc
            rcases hc with rfl | hc
            · exact ⟨A, B, List.mem_cons_self _ _, hA, hB, hboth⟩
            · obtain ⟨A', B', hm, rest'⟩ := ih (n + 1) log' hrec c hc
              exact ⟨A', B', List.mem_cons_of_mem _ hm, rest'⟩
        · cases hrec : narrowPhase C bodies dt_sec rest n with
          | none => simp [hrec] at h
          | some log' =>
            simp only [hrec, Option.map_some', Option.some.injEq] at h
            subst h
            simp only [List.mem_cons] at hc
            rcases hc with rfl | hc
            · exact ⟨A, B, List.mem_cons_self _ _, hA, hB, hboth⟩
            · obtain ⟨A', B', hm, rest'⟩ := ih n log' hrec c hc
              exact ⟨A', B', List.mem_cons_of_mem _ hm, rest'⟩
    · simp at h

/-- The buffer is written at the consecutive indices `n, n + 1, ...`, once per
stored contact, and no more contacts are stored than there are pairs. -/
theorem narrowPhase_writes (C : Collab) (bodies : List Body) (dt_sec : ℚ) :
    ∀ (pairs : List CollisionPair) (n : Int) (log : NarrowLog),
      narrowPhase C bodies dt_sec pairs n = some log →
      log.writes = (List.range log.contacts.length).map (fun k : Nat => n + (k : Int)) ∧
      log.contacts.length ≤ pairs.length := by
  intro pairs
  induction pairs with
  | nil =>
    intro n log h
    simp only [narrowPhase, Option.some.injEq] at h
    subst h
    simp
  | cons p rest ih =>
    intro n log h
    simp only [narrowPhase] at h
    split at h
    · split_ifs at h with hboth
      · obtain ⟨h1, h2⟩ := ih n log h
        exact ⟨h1, by simp only [List.length_cons]; omega⟩
      · split at h
        · cases hrec : narrowPhase C bodies dt_sec rest (n + 1) with
          | none => simp [hrec] at h
          | some log' =>
            simp only [hrec, Option.map_some', Option.some.injEq] at h
            subst h
            obtain ⟨h1, h2⟩ := ih (n + 1) log' hrec
            refine ⟨?_, by simp only [List.length_cons]; omega⟩
            simp only [List.length_cons, List.range_succ_eq_map, List.map_cons, List.map_map, h1]
            congr 1
            · simp
            · apply List.map_congr_left
              intro k _
              simp only [Function.comp, Nat.succ_eq_add_one]
              push_cast
              ring
        · cases hrec : narrowPhase C bodies dt_sec rest n with
          | none => simp [hrec] at h
          | some log' =>
            simp only [hrec, Option.map_some', Option.some.injEq] at h
            subst h
            obtain ⟨h1, h2⟩ := ih n log' hrec
            exact ⟨h1, by simp only [List.length_cons]; omega⟩
    · simp at h

theorem getElem?_some_lt {α : Type} (l : List α) (i : Nat) (a : α) (h : l[i]? = some a) :
    i < l.length := by
  by_contra hcon
  rw [List.getElem?_eq_none (by omega)] at h
  exact Option.noConfusion h

theorem integrateAndResolve_length (C : Collab) (c : Contact) (A B : Body)
    (bodies : List Body) (dt : ℚ) :
    (integrateAndResolve C c A B bodies dt).length = bodies.length := by
  simp [integrateAndResolve]

/-- The body at a slot after a resolved iteration: the second output of
`ResolveContact` at `contact.b`, the first at `contact.a`, the integrated body
elsewhere. -/
theorem integrateAndResolve_getElem? (C : Collab) (c : Contact) (A B : Body)
    (bodies : List Body) (dt : ℚ) (i : Nat) (b : Body) (hb : bodies[i]? = some b) :
    (integrateAndResolve C c A B bodies dt)[i]? =
      some (if c.b = i then
          (C.ResolveContact c (A.Update C.rotate dt) (B.Update C.rotate dt)).2
        else if c.a = i then
          (C.ResolveContact c (A.Update C.rotate dt) (B.Update C.rotate dt)).1
        else b.Update C.rotate dt) := by
  have hi : i < bodies.length := by
    by_contra hcon
    rw [List.getElem?_eq_none (by omega)] at hb
    exact Option.noConfusion hb
  simp only [integrateAndResolve, List.getElem?_set, List.length_set, List.length_map,
    List.getElem?_map, hb, Option.map_some']
  split_ifs <;> first | rfl | omega

/-- Inversion of one iteration of the resolution loop. -/
theorem resolveLoop_cons_some (C : Collab) (c : Contact) (rest : List Contact)
    (bodies : List Body) (acc : ℚ) (r : Resolution)
    (h : resolveLoop C (c :: rest) bodies acc = some r) :
    ∃ A B r', bodies[c.a]? = some A ∧ bodies[c.b]? = some B ∧
      (((A.inverseMass = 0 ∧ B.inverseMass = 0) ∧
          resolveLoop C rest bodies acc = some r' ∧
          r = { r' with
            ledger := ⟨c, round32 (c.timeOfImpact - acc), false, acc⟩ :: r'.ledger }) ∨
        (¬ (A.inverseMass = 0 ∧ B.inverseMass = 0) ∧
          resolveLoop C rest
            (integrateAndResolve C c A B bodies (round32 (c.timeOfImpact - acc)))
            (round32 (acc + round32 (c.timeOfImpact - acc))) = some r' ∧
          r = { r' with
            ledger := ⟨c, round32 (c.timeOfImpact - acc), true,
              round32 (acc + round32 (c.timeOfImpact - acc))⟩ :: r'.ledger })) := by
  simp only [resolveLoop] at h
  split at h
  · rename_i A B hA hB
    split_ifs at h with hboth
    · cases hrec : resolveLoop C rest bodies acc with
      | none =>
        rw [hrec] at h
        exact Option.noConfusion h
      | some r' =>
        simp only [hrec, Option.map_some', Option.some.injEq] at h
        exact ⟨A, B, r', hA, hB, Or.inl ⟨hboth, rfl, h.symm⟩⟩
    · cases hrec : resolveLoop C rest
          (integrateAndResolve C c A B bodies (round32 (c.timeOfImpact - acc)))
          (round32 (acc + round32 (c.timeOfImpact - acc))) with
      | none =>
        rw [hrec] at h
        exact Option.noConfusion h
      | some r' =>
        simp only [hrec, Option.map_some', Option.some.injEq] at h
        exact ⟨A, B, r', hA, hB, Or.inr ⟨hboth, hrec, h.symm⟩⟩
  · simp at h

theorem resolveLoop_some (C : Collab) :
    ∀ (cs : List Contact) (bodies : List Body) (acc : ℚ),
      (∀ c ∈ cs, c.a < bodies.length ∧ c.b < bodies.length) →
      ∃ r, resolveLoop C cs bodies acc = some r := by
  intro cs
  induction cs with
  | nil => intro bodies acc _; exact ⟨_, rfl⟩
  | cons c rest ih =>
    intro bodies acc h
    have hc := h c (List.mem_cons_self _ _)
    have hrest : ∀ q ∈ rest, q.a < bodies.length ∧ q.b < bodies.length :=
      fun q hq => h q (List.mem_cons_of_mem _ hq)
    simp only [resolveLoop, List.getElem?_eq_getElem hc.1, List.getElem?_eq_getElem hc.2]
    split_ifs
    · obtain ⟨r, hr⟩ := ih bodies acc hrest
      rw [hr]
      exact ⟨_, rfl⟩
    · obtain ⟨r, hr⟩ := ih (integrateAndResolve C c bodies[c.a] bodies[c.b] bodies
        (round32 (c.timeOfImpact - acc))) (round32 (acc + round32 (c.timeOfImpact - acc)))
        (by simpa [integrateAndResolve_length] using hrest)
      rw [hr]
      exact ⟨_, rfl⟩

theorem resolveLoop_length (C : Collab) :
    ∀ (cs : List Contact) (bodies : List Body) (acc : ℚ) (r : Resolution),
      resolveLoop C cs bodies acc = some r → r.bodies.length = bodies.length := by
  intro cs
  induction cs with
  | nil =>
    intro bodies acc r h
    simp only [resolveLoop, Option.some.injEq] at h
    subst h
    rfl
  | cons c rest ih =>
    intro bodies acc r h
    obtain ⟨A, B, r', _, _, hcase⟩ := resolveLoop_cons_some C c rest bodies acc r h
    rcases hcase with ⟨_, hrec, rfl⟩ | ⟨_, hrec, rfl⟩
    · exact ih _ _ r' hrec
    · simpa [integrateAndResolve_length] using ih _ _ r' hrec

/-- An invariant of the body in slot `i` through the resolution loop: a property
kept by `Body::Update`, and kept by `ResolveContact` for the resolved contacts that
point to slot `i`, still holds at the end. -/
theorem resolveLoop_inv (C : Collab) (P : Body → Prop) (i : Nat)
    (hU : ∀ b dt, P b → P (b.Update C.rotate dt)) :
    ∀ (cs : List Contact) (bodies : List Body) (acc : ℚ) (r : Resolution),
      resolveLoop C cs bodies acc = some r →
      (∀ e ∈ r.ledger, e.resolved = true → ∀ A B,
        (e.contact.a = i → P A → P (C.ResolveContact e.contact A B).1) ∧
        (e.contact.b = i → P B → P (C.ResolveContact e.contact A B).2)) →
      ∀ b, bodies[i]? = some b → P b → ∃ b', r.bodies[i]? = some b' ∧ P b' := by
  intro cs
  induction cs with
  | nil =>
    intro bodies acc r h _ b hb hP
    simp only [resolveLoop, Option.some.injEq] at h
    subst h
    exact ⟨b, hb, hP⟩
  | cons c rest ih =>
    intro bodies acc r h hR b hb hP
    obtain ⟨A, B, r', hA, hB, hcase⟩ := resolveLoop_cons_some C c rest bodies acc r h
    rcases hcase with ⟨_, hrec, rfl⟩ | ⟨_, hrec, rfl⟩
    · exact ih bodies acc r' hrec (fun e he => hR e (List.mem_cons_of_mem _ he)) b hb hP
    · have hhead := hR ⟨c, round32 (c.timeOfImpact - acc), true,
          round32 (acc + round32 (c.timeOfImpact - acc))⟩
        (List.mem_cons_self _ _) rfl (A.Update C.rotate (round32 (c.timeOfImpact - acc)))
        (B.Update C.rotate (round32 (c.timeOfImpact - acc)))
      have hget := integrateAndResolve_getElem? C c A B bodies
        (round32 (c.timeOfImpact - acc)) i b hb
      refine ih _ _ r' hrec (fun e he => hR e (List.mem_cons_of_mem _ he)) _ hget ?_
      split_ifs with hcb hca
      · have hBb : B = b := by
          rw [hcb, hb] at hB
          exact (Option.some.inj hB).symm
        exact hhead.2 hcb (hBb ▸ hU b _ hP)
      · have hAb : A = b := by
          rw [hca, hb] at hA
          exact (Option.some.inj hA).symm
        exact hhead.1 hca (hAb ▸ hU b _ hP)
      · exact hU b _ hP

theorem sortStep_perm (cs : List Contact) : (sortStep cs).Perm cs := by
  unfold sortStep sortContacts
  split
  · exact List.perm_insertionSort _ _
  · exact List.Perm.refl _

/-- Inversion of `Scene::Update`. -/
theorem Update_some (C : Collab) (s : Scene) (dt_sec : ℚ) (f : Frame)
    (h : s.Update C dt_sec = some f) :
    ∃ log r,
      narrowPhase C (s.afterForces dt_sec) dt_sec
        (C.BroadPhase (s.afterForces dt_sec) dt_sec) 0 = some log ∧
      resolvePhase C log.contacts (s.afterForces dt_sec) = some r ∧
      f = s.finish C dt_sec log r := by
  simp only [Scene.Update] at h
  split at h
  · exact Option.noConfusion h
  · rename_i log hlog
    split at h
    · exact Option.noConfusion h
    · rename_i r hr
      exact ⟨log, r, hlog, hr, (Option.some.inj h).symm⟩

theorem afterForces_length (s : Scene) (dt_sec : ℚ) :
    (s.afterForces dt_sec).length = s.bodies.length := by
  simp [Scene.afterForces]

theorem afterForces_getElem? (s : Scene) (dt_sec : ℚ) (i : Nat) :
    (s.afterForces dt_sec)[i]? = (s.bodies[i]?).map fun body => body.gravityAndDamping dt_sec := by
  simp [Scene.afterForces]

/-- When the broadphase pairs index the body list, `Scene::Update` runs to its
end. -/
theorem Update_total (C : Collab) (s : Scene) (dt_sec : ℚ)
    (hpairs : ∀ p ∈ C.BroadPhase (s.afterForces dt_sec) dt_sec,
      p.a < s.bodies.length ∧ p.b < s.bodies.length) :
    ∃ f, s.Update C dt_sec = some f := by
  have hpairs' : ∀ p ∈ C.BroadPhase (s.afterForces dt_sec) dt_sec,
      p.a < (s.afterForces dt_sec).length ∧ p.b < (s.afterForces dt_sec).length := by
    simpa [afterForces_length] using hpairs
  obtain ⟨log, hlog⟩ := narrowPhase_some C (s.afterForces dt_sec) dt_sec _ 0 hpairs'
  have hidx : ∀ c ∈ sortStep log.contacts,
      c.a < (s.afterForces dt_sec).length ∧ c.b < (s.afterForces dt_sec).length := by
    intro c hc
    obtain ⟨A, B, _, _, hA, hB, _⟩ := narrowPhase_contacts C _ dt_sec _ 0 log hlog c
      ((sortStep_perm log.contacts).mem_iff.mp hc)
    exact ⟨getElem?_some_lt _ _ _ hA, getElem?_some_lt _ _ _ hB⟩
  obtain ⟨r, hr⟩ := resolveLoop_some C _ (s.afterForces dt_sec) 0 hidx
  refine ⟨s.finish C dt_sec log r, ?_⟩
  simp only [Scene.Update, hlog, resolvePhase, hr]

/-! ## The frame advances by `dt_sec` -/

theorem round32_fixed (x : ℚ) (e n : ℤ) (hx : x ≠ 0) (hlo : (2 : ℚ) ^ e ≤ |x|)
    (hhi : |x| < (2 : ℚ) ^ (e + 1)) (he : -126 ≤ e) (hn : x / 2 ^ (e - 23) = n) :
    round32 x = x := by
  rw [round32_of x e n hx hlo hhi he (roundHalfEven_exact _ _ hn), ← hn]
  exact div_mul_cancel₀ x (zpow_ne_zero _ (by norm_num))

theorem round32_half : round32 (1 / 2) = 1 / 2 :=
  round32_fixed _ (-1) 8388608 (by norm_num) (by norm_num [abs_of_pos])
    (by norm_num [abs_of_pos]) (by norm_num) (by norm_num)

theorem round32_neg_half : round32 (-(1 / 2)) = -(1 / 2) :=
  round32_fixed _ (-1) (-8388608) (by norm_num) (by norm_num [abs_of_pos])
    (by norm_num [abs_of_pos]) (by norm_num) (by norm_num)

theorem round32_neg_one : round32 (-1) = -1 :=
  round32_fixed _ 0 (-8388608) (by norm_num) (by norm_num) (by norm_num) (by norm_num)
    (by norm_num)

theorem round32_quarter : round32 (1 / 4) = 1 / 4 :=
  round32_fixed _ (-2) 8388608 (by norm_num) (by norm_num [abs_of_pos])
    (by norm_num [abs_of_pos]) (by norm_num) (by norm_num)

theorem round32_neg_quarter : round32 (-(1 / 4)) = -(1 / 4) :=
  round32_fixed _ (-2) (-8388608) (by norm_num) (by norm_num [abs_of_pos])
    (by norm_num [abs_of_pos]) (by norm_num) (by norm_num)

theorem round32_three_quarters : round32 (3 / 4) = 3 / 4 :=
  round32_fixed _ (-1) 12582912 (by norm_num) (by norm_num [abs_of_pos])
    (by norm_num [abs_of_pos]) (by norm_num) (by norm_num)

theorem round32_neg_three_quarters : round32 (-(3 / 4)) = -(3 / 4) :=
  round32_fixed _ (-1) (-12582912) (by norm_num) (by norm_num [abs_of_pos])
    (by norm_num [abs_of_pos]) (by norm_num) (by norm_num)

/-- The times 0, 1 and 1/2 subtract without rounding. -/
theorem ExactTimes_half : ExactTimes [0, 1, 1 / 2] := by
  intro t ht u hu
  simp only [List.mem_cons, List.mem_singleton, List.not_mem_nil, or_false] at ht hu
  rcases ht with rfl | rfl | rfl <;> rcases hu with rfl | rfl | rfl <;>
    norm_num [round32_zero, round32_one, round32_half, round32_neg_half, round32_neg_one]

/-- The times 0, 3/4, 1/4 and 1/2 subtract without rounding. -/
theorem ExactTimes_quarters : ExactTimes [0, 3 / 4, 1 / 4, 1 / 2] := by
  intro t ht u hu
  simp only [List.mem_cons, List.mem_singleton, List.not_mem_nil, or_false] at ht hu
  rcases ht with rfl | rfl | rfl | rfl <;> rcases hu with rfl | rfl | rfl | rfl <;>
    norm_num [round32_zero, round32_half, round32_neg_half, round32_quarter,
      round32_neg_quarter, round32_three_quarters, round32_neg_three_quarters]

/-- The frame of the C2 instance, evaluated: one contact at 1/2, resolved, and the
steps 1/2 and 1/2, which move the untouched third ball, of velocity `(1, 0, -10)`
after gravity, from the origin to `(1, 0, -10)`; the times 0, 1 and 1/2 subtract
without rounding. -/
theorem Update_half_frame :
    ExactTimes [0, 1, 1 / 2] ∧
    ((⟨[ball (1 / 2) (1 / 10), ball 0 (1 / 2), moving 1 (1 / 2) ⟨1, 0, 0⟩], 0, 1⟩ :
        Scene).Update demo 1).map
        (fun f => (f.found.map fun c => c.timeOfImpact,
          f.ledger.map fun e => (e.contact.a, e.contact.b, e.resolved), f.steps,
          (f.scene.bodies[2]?).map fun body => body.position)) =
      some ([1 / 2], [(0, 1, true)], [1 / 2, 1 / 2], some ⟨1, 0, -10⟩) := by
  refine ⟨ExactTimes_half, ?_⟩
  have e1 : round32 ((1 : ℚ) / 2) = 1 / 2 := round32_half
  have e2 : round32 ((2 : ℚ)⁻¹) = 2⁻¹ := by
    have := round32_half
    rwa [one_div] at this
  norm_num [Scene.Update, demo, narrowPhase, resolvePhase, sortStep, resolveLoop,
    integrateAndResolve, Scene.finish, Scene.afterForces, Body.gravityAndDamping,
    Body.afterGravity, Body.ApplyImpulseLinear, moving, ball, Body.Update, Vec3.scale,
    Vec3.GetLengthSqr, Vec3.add, Vec3.zero, ledgerSteps, round32_zero, e1, e2]

/-- C9: when the broadphase pairs index the body list, `Scene::Update` runs to its
end; a pair whose two bodies have `inverseMass == 0` is never handed to
`Intersect` and no stored contact is about it; and when every body has
`inverseMass == 0`, `Intersect` is never called, `numContacts` is 0, the ledger of
the resolution loop is empty and `accumulatedTime` stays 0. -/
theorem Update_skips_static_pairs (C : Collab) (s : Scene) (dt_sec : ℚ)
    (hpairs : ∀ p ∈ C.BroadPhase (s.afterForces dt_sec) dt_sec,
      p.a < s.bodies.length ∧ p.b < s.bodies.length) :
    ∃ f, s.Update C dt_sec = some f ∧
      (∀ p ∈ f.pairs, ∀ A B, s.bodies[p.a]? = some A → s.bodies[p.b]? = some B →
        A.inverseMass = 0 → B.inverseMass = 0 →
        p ∉ f.calls ∧ ∀ c ∈ f.found, ¬ (c.a = p.a ∧ c.b = p.b)) ∧
      ((∀ b ∈ s.bodies, b.inverseMass = 0) →
        f.calls = [] ∧ f.numContacts = 0 ∧ f.ledger = [] ∧ f.accumulatedTime = 0) := by
  obtain ⟨f, hf⟩ := Update_total C s dt_sec hpairs
  obtain ⟨log, r, hlog, hr, rfl⟩ := Update_some C s dt_sec f hf
  have hlookup : ∀ (i : Nat) (A' : Body), (s.afterForces dt_sec)[i]? = some A' →
      ∃ A : Body, s.bodies[i]? = some A ∧ A'.inverseMass = A.inverseMass := by
    intro i A' h
    rw [afterForces_getElem?] at h
    cases hA : s.bodies[i]? with
    | none => rw [hA] at h; exact Option.noConfusion h
    | some A =>
      rw [hA] at h
      refine ⟨A, rfl, ?_⟩
      rw [← Option.some.inj h]
      exact gravityAndDamping_inverseMass A dt_sec
  refine ⟨_, hf, ?_, ?_⟩
  · intro p _ A B hA hB hA0 hB0
    refine ⟨fun hcall => ?_, fun c hc hcp => ?_⟩
    · obtain ⟨A', B', _, hA', hB', hnot⟩ := narrowPhase_calls C _ dt_sec _ 0 log hlog p hcall
      obtain ⟨A1, hA1, hmA⟩ := hlookup _ _ hA'
      obtain ⟨B1, hB1, hmB⟩ := hlookup _ _ hB'
      rw [hA] at hA1
      rw [hB] at hB1
      rw [← Option.some.inj hA1] at hmA
      rw [← Option.some.inj hB1] at hmB
      exact hnot ⟨hmA.trans hA0, hmB.trans hB0⟩
    · obtain ⟨A', B', _, _, hA', hB', hnot, _⟩ :=
        narrowPhase_contacts C _ dt_sec _ 0 log hlog c hc
      obtain ⟨A1, hA1, hmA⟩ := hlookup _ _ hA'
      obtain ⟨B1, hB1, hmB⟩ := hlookup _ _ hB'
      rw [hcp.1, hA] at hA1
      rw [hcp.2, hB] at hB1
      rw [← Option.some.inj hA1] at hmA
      rw [← Option.some.inj hB1] at hmB
      exact hnot ⟨hmA.trans hA0, hmB.trans hB0⟩
  · intro hall
    have hzero : ∀ (i : Nat) (A' : Body),
        (s.afterForces dt_sec)[i]? = some A' → A'.inverseMass = 0 := by
      intro i A' h
      obtain ⟨A, hA, hm⟩ := hlookup i A' h
      rw [hm]
      exact hall A (List.getElem?_mem hA)
    have hcalls : log.calls = [] := by
      apply List.eq_nil_iff_forall_not_mem.mpr
      intro p hp
      obtain ⟨A', B', _, hA', hB', hnot⟩ := narrowPhase_calls C _ dt_sec _ 0 log hlog p hp
      exact hnot ⟨hzero _ _ hA', hzero _ _ hB'⟩
    have hfound : log.contacts = [] := by
      apply List.eq_nil_iff_forall_not_mem.mpr
      intro c hc
      obtain ⟨A', B', _, _, hA', hB', hnot, _⟩ :=
        narrowPhase_contacts C _ dt_sec _ 0 log hlog c hc
      exact hnot ⟨hzero _ _ hA', hzero _ _ hB'⟩
    rw [hfound] at hr
    simp only [resolvePhase, sortStep, List.length_nil, gt_iff_lt, Nat.not_lt_zero, if_false,
      resolveLoop, Option.some.injEq] at hr
    subst hr
    simp [Scene.finish, hcalls, hfound]

/-! ## Bodies of infinite mass -/

/-- The gravity and damping pass leaves the linear velocity of an infinite-mass
body alone when the body is not launchable or is at rest. -/
theorem gravityAndDamping_static (body : Body) (dt_sec : ℚ) (hmass : body.inverseMass = 0)
    (hrole : body.elasticity ≠ 1 / 10 ∨ body.linearVelocity = Vec3.zero) :
    (body.gravityAndDamping dt_sec).linearVelocity = body.linearVelocity := by
  unfold Body.gravityAndDamping Body.afterGravity Body.ApplyImpulseLinear
  dsimp only
  rw [if_pos hmass]
  rcases hrole with hel | hv
  · rw [if_neg hel]
  · split_ifs with _ hlen
    · rw [hv] at hlen
      norm_num [Vec3.GetLengthSqr, Vec3.zero] at hlen
    · exact hv.symm
    · rfl

theorem Pinned_Update (rotate : Quat → Vec3 → ℚ → Quat) (b x : Body) (dt : ℚ)
    (h : b.Pinned x) : b.Pinned (x.Update rotate dt) := by
  obtain ⟨h1, h2, h3, h4⟩ := h
  refine ⟨h1, ?_, h3, h4⟩
  simp only [Body.Update, if_pos h1]
  exact h2

theorem Pinned_Resolve (C : Collab) (hR : C.Respects) (b : Body) (c : Contact) (A B : Body) :
    (b.Pinned A → b.Pinned (C.ResolveContact c A B).1) ∧
    (b.Pinned B → b.Pinned (C.ResolveContact c A B).2) := by
  obtain ⟨hAm, hAe, hBm, hBe, hA, hB⟩ := hR c A B
  constructor
  · rintro ⟨h1, h2, h3, h4⟩
    exact ⟨hAm.trans h1, (hA h1).1.trans h2, (hA h1).2.trans h3, hAe.trans h4⟩
  · rintro ⟨h1, h2, h3, h4⟩
    exact ⟨hBm.trans h1, (hB h1).1.trans h2, (hB h1).2.trans h3, hBe.trans h4⟩

/-- One `Scene::Update` call keeps the number of bodies. -/
theorem Update_length (C : Collab) (s : Scene) (dt_sec : ℚ) (f : Frame)
    (h : s.Update C dt_sec = some f) : f.scene.bodies.length = s.bodies.length := by
  obtain ⟨log, r, _, hr, rfl⟩ := Update_some C s dt_sec f h
  have := resolveLoop_length C _ _ _ r hr
  simp only [Scene.finish]
  split_ifs
  · simpa [afterForces_length] using this
  · simpa [afterForces_length] using this

/-- An invariant of the body in slot `i` through the part of `Scene::Update` that
follows the gravity and damping pass. -/
theorem Update_inv (C : Collab) (s : Scene) (dt_sec : ℚ) (f : Frame)
    (h : s.Update C dt_sec = some f) (P : Body → Prop) (i : Nat)
    (hU : ∀ b dt, P b → P (b.Update C.rotate dt))
    (hR : ∀ e ∈ f.ledger, e.resolved = true → ∀ A B,
      (e.contact.a = i → P A → P (C.ResolveContact e.contact A B).1) ∧
      (e.contact.b = i → P B → P (C.ResolveContact e.contact A B).2))
    (b : Body) (hb : (s.afterForces dt_sec)[i]? = some b) (hP : P b) :
    ∃ b', f.scene.bodies[i]? = some b' ∧ P b' := by
  obtain ⟨log, r, _, hr, rfl⟩ := Update_some C s dt_sec f h
  obtain ⟨b1, hb1, hP1⟩ := resolveLoop_inv C P i hU _ _ _ r hr hR b hb hP
  simp only [Scene.finish]
  split_ifs
  · exact ⟨b1.Update C.rotate (round32 (dt_sec - r.accumulatedTime)),
      by simp [List.getElem?_map, hb1], hU _ _ hP1⟩
  · exact ⟨b1, hb1, hP1⟩

/-- One `Scene::Update` call keeps an infinite-mass body that is not launchable or
is at rest where it is, with its linear velocity, mass and elasticity. -/
theorem Update_keeps_static (C : Collab) (hR : C.Respects) (s : Scene) (dt_sec : ℚ)
    (f : Frame) (h : s.Update C dt_sec = some f) (i : Nat) (b : Body)
    (hb : s.bodies[i]? = some b) (hmass : b.inverseMass = 0)
    (hrole : b.elasticity ≠ 1 / 10 ∨ b.linearVelocity = Vec3.zero) :
    ∃ b', f.scene.bodies[i]? = some b' ∧ b.Pinned b' := by
  refine Update_inv C s dt_sec f h b.Pinned i (fun x dt => Pinned_Update C.rotate b x dt)
    (fun e _ _ A B =>
      ⟨fun _ => (Pinned_Resolve C hR b e.contact A B).1,
        fun _ => (Pinned_Resolve C hR b e.contact A B).2⟩)
    (b.gravityAndDamping dt_sec) (by simp [afterForces_getElem?, hb]) ?_
  exact ⟨(gravityAndDamping_inverseMass b dt_sec).trans hmass,
    gravityAndDamping_position b dt_sec,
    gravityAndDamping_static b dt_sec hmass hrole,
    gravityAndDamping_elasticity b dt_sec⟩

theorem updates_total (C : Collab) (hB : C.InBounds) (dts : List ℚ) :
    ∀ s : Scene, ∃ s', s.updates C dts = some s' ∧ s'.bodies.length = s.bodies.length := by
  induction dts with
  | nil => intro s; exact ⟨s, rfl, rfl⟩
  | cons dt rest ih =>
    intro s
    obtain ⟨f, hf⟩ := Update_total C s dt (by
      intro p hp
      simpa [afterForces_length] using hB _ _ p hp)
    obtain ⟨s', hs', hlen⟩ := ih f.scene
    refine ⟨s', ?_, hlen.trans (Update_length C s dt f hf)⟩
    simp only [Scene.updates, hf, hs']

/-- Consecutive `Scene::Update` calls keep an infinite-mass body that is not
launchable or is at rest where it is, with its linear velocity, when contact
resolution treats infinite-mass bodies as immovable. -/
theorem updates_keep_pinned (C : Collab) (hR : C.Respects) (i : Nat) (b : Body)
    (hrole : b.elasticity ≠ 1 / 10 ∨ b.linearVelocity = Vec3.zero) :
    ∀ (dts : List ℚ) (s s' : Scene), s.updates C dts = some s' →
      ∀ x : Body, s.bodies[i]? = some x → b.Pinned x →
        ∃ b' : Body, s'.bodies[i]? = some b' ∧ b.Pinned b' := by
  intro dts
  induction dts with
  | nil =>
    intro s s' h x hx hp
    simp only [Scene.updates, Option.some.injEq] at h
    subst h
    exact ⟨x, hx, hp⟩
  | cons dt rest ih =>
    intro s s' h x hx hp
    simp only [Scene.updates] at h
    split at h
    · exact Option.noConfusion h
    · rename_i f hf
      have hrole' : x.elasticity ≠ 1 / 10 ∨ x.linearVelocity = Vec3.zero := by
        rcases hrole with hel | hv
        · exact Or.inl (by rw [hp.2.2.2]; exact hel)
        · exact Or.inr (by rw [hp.2.2.1]; exact hv)
      obtain ⟨x', hx', hp'⟩ := Update_keeps_static C hR s dt f hf i x hx hp.1 hrole'
      exact ih f.scene s' h x' hx'
        ⟨hp'.1, hp'.2.1.trans hp.2.1, hp'.2.2.1.trans hp.2.2.1, hp'.2.2.2.trans hp.2.2.2⟩

/-- Contact resolution by impulses leaves inverse mass and elasticity alone, and an
infinite-mass body altogether. -/
theorem impulsive_Respects (BroadPhase : List Body → ℚ → List CollisionPair)
    (Intersect : Body → Body → ℚ → Option Impact)
    (impulse : Contact → Body → Body → Vec3) (spin : Body → Vec3 → Vec3 → Vec3)
    (rotate : Quat → Vec3 → ℚ → Quat) :
    (impulsive BroadPhase Intersect impulse spin rotate).Respects := by
  intro c A B
  simp only [impulsive, resolveByImpulses, Body.ApplyImpulse]
  refine ⟨?_, ?_, ?_, ?_, ?_, ?_⟩
  · split_ifs <;> rfl
  · split_ifs <;> rfl
  · split_ifs <;> rfl
  · split_ifs <;> rfl
  · intro h; rw [if_pos h]; exact ⟨rfl, rfl⟩
  · intro h; rw [if_pos h]; exact ⟨rfl, rfl⟩

/-- The gravity and damping pass on a launchable body of infinite mass: the
linear velocity is scaled by 0.99 when its squared length exceeds 0.05 and zeroed
otherwise, which changes it unless it is zero. -/
theorem gravityAndDamping_static_launchable (body : Body) (dt_sec : ℚ)
    (hmass : body.inverseMass = 0) (hrole : body.elasticity = 1 / 10) :
    (body.gravityAndDamping dt_sec).linearVelocity =
      (if body.linearVelocity.GetLengthSqr > 1 / 20 then body.linearVelocity.scale (99 / 100)
        else Vec3.zero) ∧
    (body.linearVelocity ≠ Vec3.zero →
      (body.gravityAndDamping dt_sec).linearVelocity ≠ body.linearVelocity) := by
  have hval : (body.gravityAndDamping dt_sec).linearVelocity =
      (if body.linearVelocity.GetLengthSqr > 1 / 20 then body.linearVelocity.scale (99 / 100)
        else Vec3.zero) := by
    unfold Body.gravityAndDamping Body.afterGravity Body.ApplyImpulseLinear
    dsimp only
    rw [if_pos hmass, if_pos hrole]
    split_ifs <;> rfl
  refine ⟨hval, fun hne heq => hne ?_⟩
  rw [hval] at heq
  split_ifs at heq
  · have hx : body.linearVelocity.x = 0 := by
      have := congrArg Vec3.x heq
      simp only [Vec3.scale] at this
      linarith
    have hy : body.linearVelocity.y = 0 := by
      have := congrArg Vec3.y heq
      simp only [Vec3.scale] at this
      linarith
    have hz : body.linearVelocity.z = 0 := by
      have := congrArg Vec3.z heq
      simp only [Vec3.scale] at this
      linarith
    cases hv : body.linearVelocity with
    | mk x y z =>
      rw [hv] at hx hy hz
      simp only at hx hy hz
      rw [hx, hy, hz]
      rfl
  · exact heq.symm

/-- C1 (as amended): with contact resolution by impulses (whatever the broadphase,
the contacts found and the impulses computed for them), after any number of
consecutive `Scene::Update` calls, of any time steps, that run to their end, every
body with `inverseMass == 0` that is not launchable (elasticity other than 0.1) or
that has zero linear velocity has the same position and the same linear velocity
as before them; the calls run to their end when the broadphase pairs index the
body list; and a body with `inverseMass == 0`, elasticity 0.1 and a non-zero linear
velocity keeps its position over one call but not its linear velocity, which the
damping scales or zeroes. -/
theorem updates_keep_static (BroadPhase : List Body → ℚ → List CollisionPair)
    (Intersect : Body → Body → ℚ → Option Impact)
    (impulse : Contact → Body → Body → Vec3) (spin : Body → Vec3 → Vec3 → Vec3)
    (rotate : Quat → Vec3 → ℚ → Quat) (s : Scene) (dts : List ℚ) :
    (∀ s', s.updates (impulsive BroadPhase Intersect impulse spin rotate) dts = some s' →
      ∀ (i : Nat) (b : Body), s.bodies[i]? = some b → b.inverseMass = 0 →
        (b.elasticity ≠ 1 / 10 ∨ b.linearVelocity = Vec3.zero) →
        ∃ b' : Body, s'.bodies[i]? = some b' ∧ b'.position = b.position ∧
          b'.linearVelocity = b.linearVelocity) ∧
    ((impulsive BroadPhase Intersect impulse spin rotate).InBounds →
      ∃ s', s.updates (impulsive BroadPhase Intersect impulse spin rotate) dts = some s') ∧
    (∀ (dt_sec : ℚ) (f : Frame) (i : Nat) (b : Body),
      s.Update (impulsive BroadPhase Intersect impulse spin rotate) dt_sec = some f →
      s.bodies[i]? = some b → b.inverseMass = 0 → b.elasticity = 1 / 10 →
      b.linearVelocity ≠ Vec3.zero →
      ∃ b' : Body, f.scene.bodies[i]? = some b' ∧ b'.position = b.position ∧
        b'.linearVelocity ≠ b.linearVelocity) := by
  have hR := impulsive_Respects BroadPhase Intersect impulse spin rotate
  refine ⟨?_, ?_, ?_⟩
  · intro s' hs' i b hb hmass hrole
    obtain ⟨b', hb', hp⟩ :=
      updates_keep_pinned _ hR i b hrole dts s s' hs' b hb ⟨hmass, rfl, rfl, rfl⟩
    exact ⟨b', hb', hp.2.1, hp.2.2.1⟩
  · intro hB
    obtain ⟨s', hs', _⟩ := updates_total _ hB dts s
    exact ⟨s', hs'⟩
  · intro dt_sec f i b hf hb hmass hrole hne
    obtain ⟨_, hchg⟩ := gravityAndDamping_static_launchable b dt_sec hmass hrole
    obtain ⟨b', hb', hp⟩ := Update_inv _ s dt_sec f hf (b.gravityAndDamping dt_sec).Pinned i
      (fun x dt => Pinned_Update rotate _ x dt)
      (fun e _ _ A B =>
        ⟨fun _ => (Pinned_Resolve _ hR _ e.contact A B).1,
          fun _ => (Pinned_Resolve _ hR _ e.contact A B).2⟩)
      (b.gravityAndDamping dt_sec) (by simp [afterForces_getElem?, hb])
      ⟨(gravityAndDamping_inverseMass b dt_sec).trans hmass, rfl, rfl, rfl⟩
    refine ⟨b', hb', hp.2.1.trans (gravityAndDamping_position b dt_sec), ?_⟩
    rw [hp.2.2.1]
    exact hchg hne

theorem demo_InBounds : demo.InBounds := by
  intro bodies dt_sec p hp
  simp only [demo] at hp
  split_ifs at hp with h
  · simp only [List.mem_singleton] at hp
    subst hp
    exact ⟨by simp only; omega, by simp only; omega⟩
  · simp at hp

theorem demo_Respects : demo.Respects := by
  intro c A B
  simp only [demo]
  refine ⟨?_, ?_, ?_, ?_, ?_, ?_⟩
  · split_ifs <;> rfl
  · split_ifs <;> rfl
  · split_ifs <;> rfl
  · split_ifs <;> rfl
  · intro h; rw [if_pos h]; exact ⟨rfl, rfl⟩
  · intro h; rw [if_pos h]; exact ⟨rfl, rfl⟩

theorem quiet_InBounds : quiet.InBounds := by
  intro bodies dt_sec p hp
  simp [quiet] at hp

theorem bumper_InBounds : bumper.InBounds := demo_InBounds

/-- C1 at a concrete run: a launchable ball above a static sphere, the pair in
contact in each of two frames, resolved by an upward impulse. -/
theorem updates_keep_static_witness :
    bumper.InBounds ∧
    ∃ s', (⟨[ball (1 / 2) (1 / 10), ball 0 (1 / 2)], 0, 1⟩ : Scene).updates bumper [1, 1 / 2] =
        some s' ∧
      ∀ (i : Nat) (b : Body),
        (⟨[ball (1 / 2) (1 / 10), ball 0 (1 / 2)], 0, 1⟩ : Scene).bodies[i]? = some b →
        b.inverseMass = 0 →
        (b.elasticity ≠ 1 / 10 ∨ b.linearVelocity = Vec3.zero) →
        ∃ b' : Body, s'.bodies[i]? = some b' ∧ b'.position = b.position ∧
          b'.linearVelocity = b.linearVelocity :=
  have h := updates_keep_static demo.BroadPhase demo.Intersect (fun _ _ _ => ⟨0, 0, 1⟩)
    (fun _ _ _ => Vec3.zero) (fun q _ _ => q)
    ⟨[ball (1 / 2) (1 / 10), ball 0 (1 / 2)], 0, 1⟩ [1, 1 / 2]
  ⟨bumper_InBounds, (h.2.1 bumper_InBounds).choose,
    (h.2.1 bumper_InBounds).choose_spec,
    h.1 _ (h.2.1 bumper_InBounds).choose_spec⟩

/-- C1 fails as stated: a single body with `inverseMass == 0`, elasticity 0.1 and
linear velocity `(1, 0, 0)` has linear velocity `(0.99, 0, 0)` after one
`Scene::Update(1)`, its position being unchanged. -/
theorem Update_damps_static_launchable :
    (moving 0 (1 / 10) ⟨1, 0, 0⟩).inverseMass = 0 ∧
    (moving 0 (1 / 10) ⟨1, 0, 0⟩).linearVelocity = ⟨1, 0, 0⟩ ∧
    ((⟨[moving 0 (1 / 10) ⟨1, 0, 0⟩], 0, 1⟩ : Scene).Update bumper 1).map
        (fun f => f.scene.bodies.map fun body => (body.position, body.linearVelocity)) =
      some [(Vec3.zero, ⟨99 / 100, 0, 0⟩)] := by
  refine ⟨rfl, rfl, ?_⟩
  norm_num [Scene.Update, bumper, impulsive, demo, narrowPhase, resolvePhase, sortStep,
    resolveLoop, Scene.finish, Scene.afterForces, Body.gravityAndDamping, Body.afterGravity,
    Body.ApplyImpulseLinear, ball, moving, Body.Update, Vec3.scale, Vec3.GetLengthSqr, Vec3.add,
    Vec3.zero, ledgerSteps, round32_zero, round32_one]

/-! ## The resting snap of launchable bodies -/

/-- C6 (as amended): for a launchable body (elasticity 0.1) whose squared linear
speed, taken after the gravity impulse of the frame, is at most 0.05, and any
`dt_sec`: `Scene::Update` runs to its end (broadphase pairs indexing the body
list), the linear and angular velocity of the body are zero after the gravity and
damping pass, and they are zero after the call when no resolved contact of the
frame points to the body. -/
theorem Update_rest_snap (C : Collab) (s : Scene) (dt_sec : ℚ) (i : Nat) (b : Body)
    (hpairs : ∀ p ∈ C.BroadPhase (s.afterForces dt_sec) dt_sec,
      p.a < s.bodies.length ∧ p.b < s.bodies.length)
    (hb : s.bodies[i]? = some b) (hrole : b.elasticity = 1 / 10)
    (hslow : (b.afterGravity dt_sec).linearVelocity.GetLengthSqr ≤ 1 / 20) :
    ∃ f, s.Update C dt_sec = some f ∧
      (∃ b1 : Body, (s.afterForces dt_sec)[i]? = some b1 ∧
        b1.linearVelocity = Vec3.zero ∧ b1.angularVelocity = Vec3.zero) ∧
      ((∀ e ∈ f.ledger, e.resolved = true → e.contact.a ≠ i ∧ e.contact.b ≠ i) →
        ∃ b' : Body, f.scene.bodies[i]? = some b' ∧
          b'.linearVelocity = Vec3.zero ∧ b'.angularVelocity = Vec3.zero) := by
  obtain ⟨f, hf⟩ := Update_total C s dt_sec hpairs
  have hrole' : (b.afterGravity dt_sec).elasticity = 1 / 10 := by
    rw [← hrole]
    unfold Body.afterGravity Body.ApplyImpulseLinear
    dsimp only
    split_ifs <;> rfl
  have hsnap : (b.gravityAndDamping dt_sec).linearVelocity = Vec3.zero ∧
      (b.gravityAndDamping dt_sec).angularVelocity = Vec3.zero := by
    unfold Body.gravityAndDamping
    dsimp only
    rw [if_pos hrole', if_neg (not_lt.mpr hslow)]
    exact ⟨rfl, rfl⟩
  have hget : (s.afterForces dt_sec)[i]? = some (b.gravityAndDamping dt_sec) := by
    simp [afterForces_getElem?, hb]
  refine ⟨f, hf, ⟨_, hget, hsnap⟩, fun hfree => ?_⟩
  exact Update_inv C s dt_sec f hf
    (fun x => x.linearVelocity = Vec3.zero ∧ x.angularVelocity = Vec3.zero) i
    (fun x dt hx => hx)
    (fun e he hres A B =>
      ⟨fun ha => absurd ha (hfree e he hres).1, fun hb' => absurd hb' (hfree e he hres).2⟩)
    _ hget hsnap

/-- C6 at a concrete frame: a launchable ball drifting at `(0.1, 0, 0)`, frame of
a hundredth of a second, no other body. -/
theorem Update_rest_snap_witness :
    (∀ p ∈ quiet.BroadPhase
        ((⟨[moving (1 / 2) (1 / 10) ⟨1 / 10, 0, 0⟩], 0, 1⟩ : Scene).afterForces (1 / 100))
        (1 / 100),
      p.a < (⟨[moving (1 / 2) (1 / 10) ⟨1 / 10, 0, 0⟩], 0, 1⟩ : Scene).bodies.length ∧
      p.b < (⟨[moving (1 / 2) (1 / 10) ⟨1 / 10, 0, 0⟩], 0, 1⟩ : Scene).bodies.length) ∧
    (⟨[moving (1 / 2) (1 / 10) ⟨1 / 10, 0, 0⟩], 0, 1⟩ : Scene).bodies[0]? =
      some (moving (1 / 2) (1 / 10) ⟨1 / 10, 0, 0⟩) ∧
    (moving (1 / 2) (1 / 10) ⟨1 / 10, 0, 0⟩).elasticity = 1 / 10 ∧
    ((moving (1 / 2) (1 / 10) ⟨1 / 10, 0, 0⟩).afterGravity (1 / 100)).linearVelocity.GetLengthSqr
      ≤ 1 / 20 ∧
    ∃ f, (⟨[moving (1 / 2) (1 / 10) ⟨1 / 10, 0, 0⟩], 0, 1⟩ : Scene).Update quiet (1 / 100) =
        some f ∧
      (∃ b1 : Body,
        ((⟨[moving (1 / 2) (1 / 10) ⟨1 / 10, 0, 0⟩], 0, 1⟩ : Scene).afterForces (1 / 100))[0]? =
          some b1 ∧
        b1.linearVelocity = Vec3.zero ∧ b1.angularVelocity = Vec3.zero) ∧
      ((∀ e ∈ f.ledger, e.resolved = true → e.contact.a ≠ 0 ∧ e.contact.b ≠ 0) →
        ∃ b' : Body, f.scene.bodies[0]? = some b' ∧
          b'.linearVelocity = Vec3.zero ∧ b'.angularVelocity = Vec3.zero) :=
  have hpairs : ∀ p ∈ quiet.BroadPhase
      ((⟨[moving (1 / 2) (1 / 10) ⟨1 / 10, 0, 0⟩], 0, 1⟩ : Scene).afterForces (1 / 100))
      (1 / 100),
      p.a < (⟨[moving (1 / 2) (1 / 10) ⟨1 / 10, 0, 0⟩], 0, 1⟩ : Scene).bodies.length ∧
      p.b < (⟨[moving (1 / 2) (1 / 10) ⟨1 / 10, 0, 0⟩], 0, 1⟩ : Scene).bodies.length := by
    simp [quiet]
  have hslow : ((moving (1 / 2) (1 / 10) ⟨1 / 10, 0, 0⟩).afterGravity
      (1 / 100)).linearVelocity.GetLengthSqr ≤ 1 / 20 := by
    norm_num [moving, Body.afterGravity, Body.ApplyImpulseLinear, Vec3.scale, Vec3.add,
      Vec3.GetLengthSqr]
  ⟨hpairs, rfl, rfl, hslow,
    Update_rest_snap quiet _ (1 / 100) 0 _ hpairs rfl rfl hslow⟩

/-- C6 fails as stated, in two ways.  A launchable ball at rest (squared speed 0)
alone in the scene leaves `Scene::Update(1)` with linear velocity `(0, 0, -9.9)`:
the threshold is tested after the gravity impulse.  And with `dt_sec = 0` a
launchable ball at rest touched by a moving ball leaves the call with the velocity
the resolution gave it. -/
theorem Update_rest_not_always_zero :
    (moving (1 / 2) (1 / 10) Vec3.zero).linearVelocity.GetLengthSqr < 1 / 20 ∧
    ((⟨[moving (1 / 2) (1 / 10) Vec3.zero], 0, 1⟩ : Scene).Update quiet 1).map
        (fun f => f.scene.bodies.map fun body => body.linearVelocity) =
      some [⟨0, 0, -(99 / 10)⟩] ∧
    ((⟨[moving (1 / 2) (1 / 10) Vec3.zero, moving (1 / 2) (1 / 2) ⟨1, 0, 0⟩], 0, 1⟩ :
        Scene).Update demo 0).map
        (fun f => f.scene.bodies.map fun body => body.linearVelocity) =
      some [⟨1, 0, 0⟩, Vec3.zero] := by
  refine ⟨by norm_num [moving, Vec3.GetLengthSqr, Vec3.zero], ?_, ?_⟩
  · norm_num [Scene.Update, quiet, demo, narrowPhase, resolvePhase, sortStep, resolveLoop,
      Scene.finish, Scene.afterForces, Body.gravityAndDamping, Body.afterGravity,
      Body.ApplyImpulseLinear, moving, Body.Update, Vec3.scale, Vec3.GetLengthSqr, Vec3.add,
      Vec3.zero, ledgerSteps, round32_zero, round32_one]
  · norm_num [Scene.Update, demo, narrowPhase, resolvePhase, sortStep, resolveLoop,
      integrateAndResolve, Scene.finish, Scene.afterForces, Body.gravityAndDamping,
      Body.afterGravity, Body.ApplyImpulseLinear, moving, Body.Update, Vec3.scale,
      Vec3.GetLengthSqr, Vec3.add, Vec3.zero, ledgerSteps, round32_zero, round32_one]

/-! ## Concrete instances -/

/-- The ledger of the C3 instance, evaluated: the contact at 1/4 between the two
static spheres is skipped and leaves `accumulatedTime` at 0, the contacts at 1/2
and 3/4 are resolved with the steps 1/2 and 1/4. -/
theorem resolvePhase_quarters :
    ExactTimes (0 :: ([⟨0, 1, 3 / 4, Vec3.zero, ⟨0, 0, 1⟩⟩,
      ⟨2, 3, 1 / 4, Vec3.zero, ⟨0, 0, 1⟩⟩, ⟨1, 2, 1 / 2, Vec3.zero, ⟨0, 0, 1⟩⟩] :
        List Contact).map fun c => c.timeOfImpact) ∧
    (resolvePhase demo
        [⟨0, 1, 3 / 4, Vec3.zero, ⟨0, 0, 1⟩⟩, ⟨2, 3, 1 / 4, Vec3.zero, ⟨0, 0, 1⟩⟩,
          ⟨1, 2, 1 / 2, Vec3.zero, ⟨0, 0, 1⟩⟩]
        [ball 1 (1 / 2), ball 1 (1 / 2), ball 0 (1 / 2), ball 0 (1 / 2)]).map
        (fun r => r.ledger.map fun e =>
          (e.contact.timeOfImpact, e.dt, e.resolved, e.accumulatedTime)) =
      some [(1 / 4, 1 / 4, false, 0), (1 / 2, 1 / 2, true, 1 / 2),
        (3 / 4, 1 / 4, true, 3 / 4)] := by
  refine ⟨ExactTimes_quarters, ?_⟩
  have e1 : round32 ((4 : ℚ)⁻¹) = 4⁻¹ := by
    have := round32_quarter
    rwa [one_div] at this
  have e2 : round32 ((2 : ℚ)⁻¹) = 2⁻¹ := by
    have := round32_half
    rwa [one_div] at this
  norm_num [resolvePhase, sortStep, sortContacts, List.insertionSort, List.orderedInsert,
    resolveLoop, integrateAndResolve, demo, ball, Body.Update, round32_zero, round32_half,
    round32_quarter, round32_three_quarters, e1, e2]

/-- C9 at a concrete frame: two static spheres proposed as a pair. -/
theorem Update_skips_static_pairs_witness :
    (∀ p ∈ demo.BroadPhase ((⟨[ball 0 (1 / 2), ball 0 (1 / 2)], 0, 1⟩ : Scene).afterForces 1) 1,
      p.a < (⟨[ball 0 (1 / 2), ball 0 (1 / 2)], 0, 1⟩ : Scene).bodies.length ∧
      p.b < (⟨[ball 0 (1 / 2), ball 0 (1 / 2)], 0, 1⟩ : Scene).bodies.length) ∧
    ∃ f, (⟨[ball 0 (1 / 2), ball 0 (1 / 2)], 0, 1⟩ : Scene).Update demo 1 = some f ∧
      (∀ p ∈ f.pairs, ∀ A B,
        (⟨[ball 0 (1 / 2), ball 0 (1 / 2)], 0, 1⟩ : Scene).bodies[p.a]? = some A →
        (⟨[ball 0 (1 / 2), ball 0 (1 / 2)], 0, 1⟩ : Scene).bodies[p.b]? = some B →
        A.inverseMass = 0 → B.inverseMass = 0 →
        p ∉ f.calls ∧ ∀ c ∈ f.found, ¬ (c.a = p.a ∧ c.b = p.b)) ∧
      ((∀ b ∈ (⟨[ball 0 (1 / 2), ball 0 (1 / 2)], 0, 1⟩ : Scene).bodies, b.inverseMass = 0) →
        f.calls = [] ∧ f.numContacts = 0 ∧ f.ledger = [] ∧ f.accumulatedTime = 0) :=
  have hpairs : ∀ p ∈ demo.BroadPhase
      ((⟨[ball 0 (1 / 2), ball 0 (1 / 2)], 0, 1⟩ : Scene).afterForces 1) 1,
      p.a < (⟨[ball 0 (1 / 2), ball 0 (1 / 2)], 0, 1⟩ : Scene).bodies.length ∧
      p.b < (⟨[ball 0 (1 / 2), ball 0 (1 / 2)], 0, 1⟩ : Scene).bodies.length := by
    simp [demo, Scene.afterForces]
  ⟨hpairs, Update_skips_static_pairs demo _ 1 hpairs⟩

/-- C5 at concrete values: from `power = 1`, `SetPower(-10)` gives 0.5; from
`power = 100` it gives 90; after `SetPower(-3)` the power is at least 0.5. -/
theorem SetPower_floor_witness :
    ((1 : ℚ) ≤ 21 / 2 ∧ (Scene.SetPower ⟨[], 0, 1⟩ (-10)).power = 1 / 2) ∧
    ((21 / 2 : ℚ) < 100 ∧ (Scene.SetPower ⟨[], 0, 100⟩ (-10)).power = 100 - 10) ∧
    1 / 2 ≤ (Scene.SetPower ⟨[], 0, 1⟩ (-3)).power :=
  ⟨⟨by norm_num, (SetPower_floor ⟨[], 0, 1⟩ (-3)).1 (by norm_num)⟩,
    ⟨by norm_num, (SetPower_floor ⟨[], 0, 100⟩ (-3)).2.1 (by norm_num)⟩,
    (SetPower_floor ⟨[], 0, 1⟩ (-3)).2.2⟩

/-- C7 at a concrete scene: seven launchable balls, `round = 3`, `power = 2`. -/
theorem ThrowBallPetanque_frame_witness :
    7 ≤ (⟨List.replicate 7 (ball (1 / 2) (1 / 10)), 3, 2⟩ : Scene).bodies.length ∧
    ∃ body s',
      (⟨List.replicate 7 (ball (1 / 2) (1 / 10)), 3, 2⟩ : Scene).bodies[
        (⟨List.replicate 7 (ball (1 / 2) (1 / 10)), 3, 2⟩ : Scene).throwSlot]? = some body ∧
      (⟨List.replicate 7 (ball (1 / 2) (1 / 10)), 3, 2⟩ : Scene).ThrowBallPetanque
        ⟨0, 0, 1⟩ ⟨1, 0, 0⟩ = some s' ∧
      s'.power = (⟨List.replicate 7 (ball (1 / 2) (1 / 10)), 3, 2⟩ : Scene).power ∧
      s'.bodies.length =
        (⟨List.replicate 7 (ball (1 / 2) (1 / 10)), 3, 2⟩ : Scene).bodies.length ∧
      (body.elasticity = 1 / 10 →
        s'.bodies[(⟨List.replicate 7 (ball (1 / 2) (1 / 10)), 3, 2⟩ : Scene).throwSlot]? =
          some { body with
            position := ⟨0, 0, 1⟩
            linearVelocity := (⟨1, 0, 0⟩ : Vec3).scale
              (⟨List.replicate 7 (ball (1 / 2) (1 / 10)), 3, 2⟩ : Scene).power
            angularVelocity := ⟨0, -4, 0⟩ } ∧
        ∀ j, j ≠ (⟨List.replicate 7 (ball (1 / 2) (1 / 10)), 3, 2⟩ : Scene).throwSlot →
          s'.bodies[j]? =
            (⟨List.replicate 7 (ball (1 / 2) (1 / 10)), 3, 2⟩ : Scene).bodies[j]?) ∧
      (body.elasticity ≠ 1 / 10 →
        s'.bodies = (⟨List.replicate 7 (ball (1 / 2) (1 / 10)), 3, 2⟩ : Scene).bodies) :=
  ⟨by simp, ThrowBallPetanque_frame ⟨List.replicate 7 (ball (1 / 2) (1 / 10)), 3, 2⟩
    ⟨0, 0, 1⟩ ⟨1, 0, 0⟩ (by simp)⟩

/-! ## The round-robin slot -/

/-- After `Initialize()` on a fresh scene the slots 0 to 6 hold launchable bodies
and slot 7 holds an arena sphere of elasticity 0.5. -/
theorem Initialize_slots (cosf sinf : ℚ → ℚ) (body0 : Body) :
    (∀ i, i < 7 → ∃ b : Body,
      (Scene.fresh.Initialize cosf sinf body0).bodies[i]? = some b ∧ b.elasticity = 1 / 10) ∧
    (∃ b : Body,
      (Scene.fresh.Initialize cosf sinf body0).bodies[7]? = some b ∧ b.elasticity = 1 / 2) ∧
    (Scene.fresh.Initialize cosf sinf body0).round = 0 := by
  refine ⟨?_, ?_, rfl⟩
  · intro i hi
    interval_cases i <;>
      simp [Scene.Initialize, Scene.fresh, Initialize.spheres, Initialize.arena,
        Initialize.earth, Initialize.sphere]
  · simp [Scene.Initialize, Scene.fresh, Initialize.spheres, Initialize.arena,
      Initialize.earth, Initialize.sphere, Initialize.arenaBall]

theorem RoundInv_length (s : Scene) (h : s.RoundInv) : 7 ≤ s.bodies.length := by
  obtain ⟨b, hb, _⟩ := h.2 6 (by omega)
  have := getElem?_some_lt _ _ _ hb
  omega

theorem RoundInv_throw (s s' : Scene) (positionP cameraRotation : Vec3) (h : s.RoundInv)
    (hthrow : s.ThrowBallPetanque positionP cameraRotation = some s') :
    s'.RoundInv ∧ s'.round = s.throwSlot + 1 ∧
      ∀ j, 7 ≤ j → s'.bodies[j]? = s.bodies[j]? := by
  obtain ⟨body, hbody, hsome⟩ :=
    ThrowBallPetanque_some s positionP cameraRotation (RoundInv_length s h)
  rw [hsome] at hthrow
  have hs' := (Option.some.inj hthrow).symm
  subst hs'
  have hle := throwSlot_le s
  refine ⟨⟨by simp only; omega, ?_⟩, rfl, ?_⟩
  · intro i hi
    obtain ⟨b, hb, hel⟩ := h.2 i hi
    simp only
    split_ifs with hlaunch
    · by_cases hslot : s.throwSlot = i
      · refine ⟨body.launch positionP cameraRotation s.power, ?_, hlaunch⟩
        have hlt : s.throwSlot < s.bodies.length := getElem?_some_lt _ _ _ hbody
        rw [List.getElem?_set, if_pos hslot, if_pos hlt]
      · exact ⟨b, by rw [List.getElem?_set, if_neg hslot]; exact hb, hel⟩
    · exact ⟨b, hb, hel⟩
  · intro j hj
    simp only
    split_ifs
    · rw [List.getElem?_set, if_neg (by omega)]
    · rfl

theorem RoundInv_update (C : Collab) (hR : C.Respects) (s : Scene) (f : Frame) (dt_sec : ℚ)
    (h : s.RoundInv) (hf : s.Update C dt_sec = some f) : f.scene.RoundInv := by
  have hround : f.scene.round = s.round := by
    obtain ⟨log, r, _, _, rfl⟩ := Update_some C s dt_sec f hf
    rfl
  refine ⟨hround ▸ h.1, ?_⟩
  intro i hi
  obtain ⟨b, hb, hel⟩ := h.2 i hi
  exact Update_inv C s dt_sec f hf (fun x => x.elasticity = 1 / 10) i
    (fun x dt hx => hx)
    (fun e _ _ A B =>
      ⟨fun _ hA => (hR e.contact A B).2.1.trans hA,
        fun _ hB => (hR e.contact A B).2.2.2.1.trans hB⟩)
    (b.gravityAndDamping dt_sec) (by simp [afterForces_getElem?, hb])
    ((gravityAndDamping_elasticity b dt_sec).trans hel)

theorem Reachable_RoundInv (C : Collab) (cosf sinf : ℚ → ℚ) (body0 : Body) (hR : C.Respects)
    (s : Scene) (h : Reachable C cosf sinf body0 s) : s.RoundInv := by
  induction h with
  | init =>
    obtain ⟨h1, _, h3⟩ := Initialize_slots cosf sinf body0
    exact ⟨by rw [h3]; omega, h1⟩
  | throw s s' p d _ hthrow ih => exact (RoundInv_throw s s' p d ih hthrow).1
  | setPower s a _ ih => exact ih
  | update s f dt _ hf ih => exact RoundInv_update C hR s f dt ih hf

/-- C8 (as amended): in every scene reachable from `Initialize()` by
`ThrowBallPetanque`, `SetPower` and `Update` calls (contact resolution leaving the
elasticity of bodies alone), the stored `round` is in 0..7, the slot the next
`ThrowBallPetanque` selects (`round`, or 0 when `round` is 7) is in 0..6 and holds
a launchable body, and `ThrowBallPetanque` succeeds, stores that slot plus one in
`round` and so moves the selected slot to the next one modulo 7. -/
theorem Reachable_round_slot (C : Collab) (cosf sinf : ℚ → ℚ) (body0 : Body) (hR : C.Respects)
    (s : Scene) (h : Reachable C cosf sinf body0 s) :
    s.round ≤ 7 ∧ s.throwSlot ≤ 6 ∧
    (∃ b : Body, s.bodies[s.throwSlot]? = some b ∧ b.elasticity = 1 / 10) ∧
    ∀ positionP cameraRotation, ∃ s',
      s.ThrowBallPetanque positionP cameraRotation = some s' ∧
      s'.round = s.throwSlot + 1 ∧ s'.throwSlot = (s.throwSlot + 1) % 7 := by
  have hinv := Reachable_RoundInv C cosf sinf body0 hR s h
  have hle := throwSlot_le s
  refine ⟨hinv.1, hle, hinv.2 _ (by omega), ?_⟩
  intro p d
  obtain ⟨body, _, hsome⟩ := ThrowBallPetanque_some s p d (RoundInv_length s hinv)
  exact ⟨_, hsome, rfl, throwSlot_after s _ rfl⟩

theorem quiet_Respects : quiet.Respects := demo_Respects

/-- C8 at a concrete scene: the scene right after `Initialize()`. -/
theorem Reachable_round_slot_witness :
    quiet.Respects ∧
    Reachable quiet (fun _ => 1) (fun _ => 0) (ball 1 1)
      (Scene.fresh.Initialize (fun _ => 1) (fun _ => 0) (ball 1 1)) ∧
    ((Scene.fresh.Initialize (fun _ => 1) (fun _ => 0) (ball 1 1)).round ≤ 7 ∧
      (Scene.fresh.Initialize (fun _ => 1) (fun _ => 0) (ball 1 1)).throwSlot ≤ 6 ∧
      (∃ b : Body,
        (Scene.fresh.Initialize (fun _ => 1) (fun _ => 0) (ball 1 1)).bodies[
          (Scene.fresh.Initialize (fun _ => 1) (fun _ => 0) (ball 1 1)).throwSlot]? = some b ∧
        b.elasticity = 1 / 10) ∧
      ∀ positionP cameraRotation, ∃ s',
        (Scene.fresh.Initialize (fun _ => 1) (fun _ => 0) (ball 1 1)).ThrowBallPetanque
          positionP cameraRotation = some s' ∧
        s'.round =
          (Scene.fresh.Initialize (fun _ => 1) (fun _ => 0) (ball 1 1)).throwSlot + 1 ∧
        s'.throwSlot =
          ((Scene.fresh.Initialize (fun _ => 1) (fun _ => 0) (ball 1 1)).throwSlot + 1) % 7) :=
  ⟨quiet_Respects, Reachable.init,
    Reachable_round_slot quiet (fun _ => 1) (fun _ => 0) (ball 1 1) quiet_Respects _ Reachable.init⟩

theorem rounds_reachable (C : Collab) (cosf sinf : ℚ → ℚ) (body0 : Body) (hR : C.Respects) :
    ∀ n, n ≤ 7 → ∃ s, Reachable C cosf sinf body0 s ∧ s.round = n ∧
      s.bodies[7]? = (Scene.fresh.Initialize cosf sinf body0).bodies[7]? := by
  intro n
  induction n with
  | zero => intro _; exact ⟨_, Reachable.init, rfl, rfl⟩
  | succ n ih =>
    intro hn
    obtain ⟨s, hs, hround, hbodies⟩ := ih (by omega)
    have hinv := Reachable_RoundInv C cosf sinf body0 hR s hs
    obtain ⟨body, _, hsome⟩ := ThrowBallPetanque_some s Vec3.zero Vec3.zero (RoundInv_length s hinv)
    obtain ⟨_, h2, h3⟩ := RoundInv_throw s _ Vec3.zero Vec3.zero hinv hsome
    refine ⟨_, Reachable.throw s _ Vec3.zero Vec3.zero hs hsome, ?_, ?_⟩
    · rw [h2]
      simp only [Scene.throwSlot, hround]
      split <;> omega
    · rw [h3 7 (le_refl 7), hbodies]

/-- C8 fails as stated: seven `ThrowBallPetanque` calls after `Initialize()` reach
a scene whose stored `round` is 7, and `bodies[7]` is an arena sphere of elasticity
0.5, not a launchable body. -/
theorem round_reaches_seven :
    ∃ s, Reachable quiet (fun _ => 1) (fun _ => 0) (ball 1 1) s ∧ s.round = 7 ∧
      ∃ b : Body, s.bodies[s.round]? = some b ∧ b.elasticity = 1 / 2 := by
  obtain ⟨s, hs, hround, hbodies⟩ :=
    rounds_reachable quiet (fun _ => 1) (fun _ => 0) (ball 1 1) quiet_Respects 7 (le_refl 7)
  obtain ⟨_, ⟨b, hb, hel⟩, _⟩ := Initialize_slots (fun _ => 1) (fun _ => 0) (ball 1 1)
  exact ⟨s, hs, hround, b, by rw [hround, hbodies]; exact hb, hel⟩

/-- C4 at a concrete scene: eight throws after `Initialize()`. -/
theorem ThrowBallPetanque_round_robin_witness :
    (Scene.fresh.Initialize (fun _ => 1) (fun _ => 0) (ball 1 1)).round = 0 ∧
    7 ≤ (Scene.fresh.Initialize (fun _ => 1) (fun _ => 0) (ball 1 1)).bodies.length ∧
    (List.replicate 8 ((⟨0, 0, 1⟩ : Vec3), (⟨1, 0, 0⟩ : Vec3))).length = 8 ∧
    ∃ s', (Scene.fresh.Initialize (fun _ => 1) (fun _ => 0) (ball 1 1)).throws
        (List.replicate 8 (⟨0, 0, 1⟩, ⟨1, 0, 0⟩)) =
      some ([0, 1, 2, 3, 4, 5, 6, 0], s') :=
  have hlen : 7 ≤ (Scene.fresh.Initialize (fun _ => 1) (fun _ => 0) (ball 1 1)).bodies.length := by
    simp [Scene.Initialize, Scene.fresh, Initialize.spheres, Initialize.arena, Initialize.earth]
  ⟨rfl, hlen, rfl,
    (ThrowBallPetanque_round_robin _ (List.replicate 8 (⟨0, 0, 1⟩, ⟨1, 0, 0⟩)) rfl hlen).2 rfl⟩

/-! ## The contact buffer -/

theorem toInt32_small (n : Nat) (h : n < 2 ^ 31) : toInt32 n = (n : Int) := by
  unfold toInt32
  have h1 : n % 2 ^ 32 = n := Nat.mod_eq_of_lt (by omega)
  rw [h1, if_pos h]

theorem pairs_length_le (pairs : List CollisionPair) (n : Nat) (hnodup : pairs.Nodup)
    (hlt : ∀ p ∈ pairs, p.a < n ∧ p.b < n) : pairs.length ≤ n * n := by
  have hsub : pairs.toFinset ⊆
      (Finset.range n ×ˢ Finset.range n).image (fun ab => (⟨ab.1, ab.2⟩ : CollisionPair)) := by
    intro p hp
    rw [List.mem_toFinset] at hp
    rw [Finset.mem_image]
    exact ⟨(p.a, p.b), by simp [hlt p hp], rfl⟩
  have hcard := Finset.card_le_card hsub
  rw [List.toFinset_card_of_nodup hnodup] at hcard
  calc pairs.length ≤ _ := hcard
    _ ≤ (Finset.range n ×ˢ Finset.range n).card := Finset.card_image_le
    _ = n * n := by simp

/-- While `bodies.size() * bodies.size()` fits an `int`, distinct broadphase pairs
that index the body list keep every write `contacts[numContacts] = contact` inside
the `maxContacts` entries of the buffer. -/
theorem Update_writes_in_buffer (C : Collab) (s : Scene) (dt_sec : ℚ) (f : Frame)
    (h : s.Update C dt_sec = some f) (hfit : s.bodies.length * s.bodies.length < 2 ^ 31)
    (hnodup : f.pairs.Nodup)
    (hlt : ∀ p ∈ f.pairs, p.a < p.b ∧ p.b < s.bodies.length) :
    f.maxContacts = ((s.bodies.length * s.bodies.length : Nat) : Int) ∧
    f.numContacts ≤ f.maxContacts ∧
    ∀ idx ∈ f.writes, 0 ≤ idx ∧ idx < f.maxContacts := by
  obtain ⟨log, r, hlog, _, rfl⟩ := Update_some C s dt_sec f h
  obtain ⟨hw, hlen⟩ := narrowPhase_writes C _ dt_sec _ 0 log hlog
  have hpairs := pairs_length_le _ s.bodies.length hnodup
    (fun p hp => ⟨lt_trans (hlt p hp).1 (hlt p hp).2, (hlt p hp).2⟩)
  simp only [Scene.finish] at hpairs
  have hmax : maxContacts s.bodies.length = ((s.bodies.length * s.bodies.length : Nat) : Int) := by
    unfold maxContacts
    rw [Nat.mod_eq_of_lt (by omega), toInt32_small _ hfit]
  simp only [Scene.finish, hmax, hw]
  refine ⟨trivial, by exact_mod_cast le_trans hlen hpairs, ?_⟩
  intro idx hidx
  simp only [List.mem_map, List.mem_range] at hidx
  obtain ⟨k, hk, rfl⟩ := hidx
  refine ⟨by omega, ?_⟩
  have : k < s.bodies.length * s.bodies.length := by omega
  omega

/-- A frame of `n >= 2` movable spheres at the origin with the collaborators
`demo`: one pair, one contact, written at index 0 of a buffer of
`maxContacts n` entries. -/
theorem crowd_frame (n : Nat) (hn : 2 ≤ n) :
    ∃ f, (⟨List.replicate n (ball 1 (1 / 2)), 0, 1⟩ : Scene).Update demo 1 = some f ∧
      f.pairs = [⟨0, 1⟩] ∧ f.writes = [0] ∧ f.maxContacts = maxContacts n := by
  have hpairs : ∀ p ∈ demo.BroadPhase
      ((⟨List.replicate n (ball 1 (1 / 2)), 0, 1⟩ : Scene).afterForces 1) 1,
      p.a < (⟨List.replicate n (ball 1 (1 / 2)), 0, 1⟩ : Scene).bodies.length ∧
      p.b < (⟨List.replicate n (ball 1 (1 / 2)), 0, 1⟩ : Scene).bodies.length := by
    simp only [demo, Scene.afterForces, List.length_map, List.length_replicate, if_pos hn,
      List.mem_singleton]
    rintro p rfl
    exact ⟨by simp only; omega, by simp only; omega⟩
  obtain ⟨f, hf⟩ := Update_total demo _ 1 hpairs
  obtain ⟨log, r, hlog, _, rfl⟩ := Update_some demo _ 1 f hf
  have h0 : 0 < n := by omega
  have h1 : 1 < n := by omega
  have hwrites : log.writes = [0] := by
    simp [Scene.afterForces, demo, narrowPhase, List.getElem?_replicate, hn, h0, h1,
      Body.gravityAndDamping, Body.afterGravity, Body.ApplyImpulseLinear, ball] at hlog
    rw [← hlog]
  refine ⟨_, hf, ?_, ?_, ?_⟩
  · simp [Scene.finish, demo, Scene.afterForces, hn]
  · simpa [Scene.finish] using hwrites
  · simp [Scene.finish]

/-- C10 at 46341 bodies, two of them touching: `maxContacts` is computed as
`-2147479015`, not `46341 * 46341`, and the contact is written at index 0 of the
buffer, which is not below `maxContacts`. -/
theorem Update_buffer_46341 :
    ∃ f, (⟨List.replicate 46341 (ball 1 (1 / 2)), 0, 1⟩ : Scene).Update demo 1 = some f ∧
      f.pairs = [⟨0, 1⟩] ∧
      f.writes = [0] ∧
      f.maxContacts = -2147479015 ∧
      ¬ ∀ idx ∈ f.writes, idx < f.maxContacts := by
  obtain ⟨f, hf, hp, hw, hm⟩ := crowd_frame 46341 (by omega)
  have hmax : maxContacts 46341 = -2147479015 := by decide
  refine ⟨f, hf, hp, hw, hm.trans hmax, ?_⟩
  rw [hw, hm, hmax]
  intro hall
  have := hall 0 (List.mem_singleton_self 0)
  omega

end IntroPhysics
